import Mathlib

/-! # numerical-conversions: a shallow embedding of `numeric_conversions.h` and `smart_numerical_casts.h`

The first header is a family of function templates, each guarded by a compile-time
condition (`std::enable_if_t`) over the source and destination types and, in
checked builds (`XNR_CONVERSION_OVERFLOW_CHECKING > 0`), by a run-time test that
throws `std::overflow_error`.

Modelling choices.

* An integer type is its signedness and its `sizeof` in bytes (`CHAR_BIT = 8`);
  types of one signedness and size are identified.  Values are mathematical
  integers (`Int`), and a conversion to an integer type reduces modulo
  `2 ^ (8 * sizeof)` into the range of that type, as C++20 prescribes and
  compilers did before.  The type `bool`, whose conversion is a test against
  zero, is not an `IntType`; the templates that accept it as a destination
  are embedded at `bool` separately.
* `int` is four bytes wide, as `smart_numerical_casts.h` assumes with
  `INT_MAX 2147483647`.  An operand of a type smaller than `int` is promoted to
  `int` before a comparison, and the two operands are then brought to their
  common type by the usual arithmetic conversions.
* A call either returns a value or throws `std::overflow_error`; a conversion
  from floating point whose truncated value the destination cannot hold has
  undefined behaviour, which is kept as a third outcome.
* The build switch is an explicit first argument of every function whose body
  has a conditional section.  A function whose body has neither a conditional
  section nor a `throw` is a plain total function.
-/

namespace numeric_conversions

/-! ## Types -/

/-- An integer type: `std::is_signed_v` and `sizeof` (in bytes). -/
structure IntType where
  is_signed : Bool
  sizeof : Nat
deriving DecidableEq, Repr

/-- Width of an integer type in bits. -/
def IntType.bits (T : IntType) : Nat := 8 * T.sizeof

/-- Value of `std::numeric_limits<T>::min()`. -/
def IntType.min (T : IntType) : Int :=
  if T.is_signed then -(2 ^ (T.bits - 1)) else 0

/-- Value of `std::numeric_limits<T>::max()`. -/
def IntType.max (T : IntType) : Int :=
  if T.is_signed then 2 ^ (T.bits - 1) - 1 else 2 ^ T.bits - 1

/-- The type `std::make_signed_t<T>`. -/
def make_signed_t (T : IntType) : IntType := { T with is_signed := true }

/-- The type `std::make_unsigned_t<T>`. -/
def make_unsigned_t (T : IntType) : IntType := { T with is_signed := false }

/-- The type `int`. -/
def int : IntType := ⟨true, 4⟩

/-- The type `unsigned int`. -/
def unsigned_int : IntType := ⟨false, 4⟩

/-- The type `signed char`. -/
def signed_char : IntType := ⟨true, 1⟩

/-- The type `unsigned char`. -/
def unsigned_char : IntType := ⟨false, 1⟩

/-- The type `short`. -/
def short : IntType := ⟨true, 2⟩

/-- The type `unsigned short`. -/
def unsigned_short : IntType := ⟨false, 2⟩

/-- The type `long long`. -/
def long_long : IntType := ⟨true, 8⟩

/-- The type `unsigned long long`. -/
def unsigned_long_long : IntType := ⟨false, 8⟩

/-! ## Integer conversions and comparisons -/

/-- Conversion `static_cast<T>(v)` of an integer value to the integer type `T`:
the value of `T` congruent to `v` modulo `2 ^ bits`. -/
def static_cast (T : IntType) (v : Int) : Int :=
  if T.is_signed then
    (v + 2 ^ (T.bits - 1)) % 2 ^ T.bits - 2 ^ (T.bits - 1)
  else
    v % 2 ^ T.bits

/-- Integral promotion: a type of lower rank than `int` becomes `int`, which
holds every value of it. -/
def integral_promotion (T : IntType) : IntType :=
  if T.sizeof < int.sizeof then int else T

/-- Usual arithmetic conversions on two integer operand types: the common type
in which a binary operator evaluates its operands.  After promotion, operands
of one signedness take the larger type; otherwise the unsigned type wins unless
the signed type is strictly larger. -/
def usual_arithmetic_conversions (A B : IntType) : IntType :=
  let A' := integral_promotion A
  let B' := integral_promotion B
  if A'.is_signed = B'.is_signed then
    if B'.sizeof ≤ A'.sizeof then A' else B'
  else
    let U := if A'.is_signed then B' else A'
    let S := if A'.is_signed then A' else B'
    if S.sizeof ≤ U.sizeof then U else S

/-- The expression `a != b` for `a` of type `A` and `b` of type `B`. -/
def cmp_ne (A : IntType) (a : Int) (B : IntType) (b : Int) : Bool :=
  let C := usual_arithmetic_conversions A B
  static_cast C a != static_cast C b

/-- The expression `a < b` for `a` of type `A` and `b` of type `B`. -/
def cmp_lt (A : IntType) (a : Int) (B : IntType) (b : Int) : Bool :=
  let C := usual_arithmetic_conversions A B
  decide (static_cast C a < static_cast C b)

/-! ## Outcomes -/

/-- Outcome of a call. -/
inductive Result where
  /-- Normal return of a value. -/
  | returns (v : Int)
  /-- The statement `throw std::overflow_error(what)`. -/
  | overflow_error (what : String)
  /-- Undefined behaviour of a floating-to-integer conversion. -/
  | undefined
deriving DecidableEq, Repr

/-- A call signals an overflow condition when it throws
`std::overflow_error`. -/
def Result.signals : Result → Bool
  | .overflow_error _ => true
  | _ => false

/-! ## `to_signed`, `to_unsigned` and their `_cast` forms -/

/-- Source: `to_signed<FixDest>(arg)`, the overload with an explicit
destination.  `checking` is `XNR_CONVERSION_OVERFLOW_CHECKING`. -/
def to_signed_FixDest (checking : Nat) (FixDest DeducedSrc : IntType) (arg : Int) :
    Result :=
  let ts := static_cast FixDest arg
  if checking > 0 ∧ cmp_ne FixDest ts DeducedSrc arg = true then
    .overflow_error "conversion to signed overflow"
  else
    .returns ts

/-- Source: `to_signed(arg)`, the overload that infers the destination
`std::make_signed_t<DeducedSrc>`. -/
def to_signed (checking : Nat) (DeducedSrc : IntType) (arg : Int) : Result :=
  let ts := static_cast (make_signed_t DeducedSrc) arg
  if checking > 0 ∧ cmp_lt (make_signed_t DeducedSrc) ts int 0 = true then
    .overflow_error "conversion to signed overflow"
  else
    .returns ts

/-- Source: `to_signed_cast<FixDest>(arg)`. -/
def to_signed_cast_FixDest (FixDest _DeducedSrc : IntType) (arg : Int) : Int :=
  static_cast FixDest arg

/-- Source: `to_signed_cast(arg)`. -/
def to_signed_cast (DeducedSrc : IntType) (arg : Int) : Int :=
  static_cast (make_signed_t DeducedSrc) arg

/-- Source: `to_unsigned<FixDest>(arg)`, the overload with an explicit
destination.  The local `tus` has type `FixDest` and is initialised from a
value of type `std::make_unsigned_t<FixDest>`. -/
def to_unsigned_FixDest (checking : Nat) (FixDest DeducedSrc : IntType) (arg : Int) :
    Result :=
  let tus := static_cast FixDest (static_cast (make_unsigned_t FixDest) arg)
  if checking > 0 ∧ cmp_ne FixDest tus DeducedSrc arg = true then
    .overflow_error "signed to unsigned overflow"
  else
    .returns tus

/-- Source: `to_unsigned(arg)`, the overload that infers the destination
`std::make_unsigned_t<DeducedSrc>`. -/
def to_unsigned (checking : Nat) (DeducedSrc : IntType) (arg : Int) : Result :=
  if checking > 0 ∧ cmp_lt DeducedSrc arg int 0 = true then
    .overflow_error "signed to unsigned overflow"
  else
    .returns (static_cast (make_unsigned_t DeducedSrc) arg)

/-- Source: `to_unsigned_cast<FixDest>(arg)`. -/
def to_unsigned_cast_FixDest (FixDest _DeducedSrc : IntType) (arg : Int) : Int :=
  static_cast (make_unsigned_t FixDest) arg

/-- Source: `to_unsigned_cast(arg)`. -/
def to_unsigned_cast (DeducedSrc : IntType) (arg : Int) : Int :=
  static_cast (make_unsigned_t DeducedSrc) arg

/-! ## `narrow_to` and `narrow_cast_to` -/

/-- Source: `narrow_to<Dest>(arg)`. -/
def narrow_to (checking : Nat) (Dest DeducedSrc : IntType) (arg : Int) : Result :=
  let nt := static_cast Dest arg
  if checking > 0 ∧ cmp_ne Dest nt DeducedSrc arg = true then
    .overflow_error "integer narrowing overflow"
  else
    .returns nt

/-- Source: `narrow_cast_to<Dest>(arg)`. -/
def narrow_cast_to (Dest _DeducedSrc : IntType) (arg : Int) : Int :=
  static_cast Dest arg

/-! ## Floating-point sources

A floating-point value is modelled by the rational number it denotes (no NaN,
no infinity, no bound on the exponent), and a floating type by its size and its
number of significand bits.  Every operation rounds as IEEE 754 does by
default, to the nearest value of the type with ties to the even significand:
an integer bound compared with a floating value is first converted to the
floating type, and the sums `arg + 0.5` and `arg - 0.5` are computed in the
wider of the type of `arg` and `double`, the type of the literal.  A floating
value converted to an integer type is truncated toward zero. -/

/-- A floating-point type: `sizeof` in bytes and
`std::numeric_limits<F>::digits`, the number of significand bits. -/
structure FloatType where
  sizeof : Nat
  digits : Nat
deriving DecidableEq, Repr

/-- The type `float` (IEEE binary32). -/
def float : FloatType := ⟨4, 24⟩

/-- The type `double` (IEEE binary64). -/
def double : FloatType := ⟨8, 53⟩

/-- Number of low-order bits of `a` that a significand of `p` bits cannot
hold: the least `s` with `a / 2 ^ s < 2 ^ p` (the first argument bounds the
number of halvings). -/
def dropped_bits (p : Nat) : Nat → Nat → Nat
  | 0, _ => 0
  | fuel + 1, a => if a < 2 ^ p then 0 else dropped_bits p fuel (a / 2) + 1

/-- Conversion of the integer `n` to the floating type `F`: the nearest value
with at most `F.digits` significant bits, ties to the even significand.  The
result is again an integer. -/
def int_to_floating (F : FloatType) (n : Int) : Int :=
  let a := n.natAbs
  let s := dropped_bits F.digits a a
  let m := a / 2 ^ s
  let r := a % 2 ^ s
  let m' := if 2 ^ s < 2 * r ∨ (2 ^ s = 2 * r ∧ m % 2 = 1) then m + 1 else m
  n.sign * ((m' * 2 ^ s : Nat) : Int)

/-- Number of binary digits of `a`. -/
def bit_length (a : Nat) : Nat := dropped_bits 0 a a

/-- The value with at most `p` significant bits nearest to `n / d` (for
`d > 0`), ties to the even significand, as a pair of a significand and a
binary exponent.  `L` is the exponent of the leading bit of `|n| / d` and `e`
that of the last bit kept. -/
def round_ratio (p : Nat) (n : Int) (d : Nat) : Int × Int :=
  let a := n.natAbs
  let t : Int := (bit_length a : Int) - (bit_length d : Int)
  let L : Int :=
    if (if 0 ≤ t then d * 2 ^ t.toNat ≤ a else d ≤ a * 2 ^ (-t).toNat) then t else t - 1
  let e : Int := L + 1 - (p : Int)
  let N : Nat := if 0 ≤ e then a else a * 2 ^ (-e).toNat
  let D : Nat := if 0 ≤ e then d * 2 ^ e.toNat else d
  let m := N / D
  let r := N % D
  let m' := if D < 2 * r ∨ (D = 2 * r ∧ m % 2 = 1) then m + 1 else m
  (n.sign * (m' : Int), e)

/-- Rounding of the rational `q` to a floating type with `p` significand
bits. -/
def round_to_digits (p : Nat) (q : ℚ) : ℚ :=
  ((round_ratio p q.num q.den).1 : ℚ) * (2 : ℚ) ^ (round_ratio p q.num q.den).2

/-- The expression `x + c` for `x` of the floating type `F` and a `double`
literal `c`: the sum is computed in the wider of the two types and rounded to
it. -/
def floating_add (F : FloatType) (x c : ℚ) : ℚ :=
  round_to_digits (max F.digits double.digits) (x + c)

/-- The expression `x - c` for `x` of the floating type `F` and a `double`
literal `c`. -/
def floating_sub (F : FloatType) (x c : ℚ) : ℚ :=
  round_to_digits (max F.digits double.digits) (x - c)

/-- Truncation toward zero. -/
def trunc (y : ℚ) : Int := if 0 ≤ y then ⌊y⌋ else ⌈y⌉

/-- Conversion `static_cast<Dest>(y)` of a floating value to an integer type:
the fraction is dropped, and the behaviour is undefined when the truncated
value is not a value of `Dest`. -/
def floating_to_integral (Dest : IntType) (y : ℚ) : Result :=
  if Dest.min ≤ trunc y ∧ trunc y ≤ Dest.max then .returns (trunc y) else .undefined

/-- Source: `truncate_to<Dest>(arg)`.  Each bound is of type `Dest` and is
converted to the type of `arg` for the comparison. -/
def truncate_to (checking : Nat) (Dest : IntType) (DeducedSrc : FloatType) (arg : ℚ) :
    Result :=
  if checking > 0 ∧
      ((int_to_floating DeducedSrc Dest.max : ℚ) < arg
        ∨ (int_to_floating DeducedSrc Dest.min : ℚ) > arg) then
    .overflow_error "number too large for conversion"
  else
    floating_to_integral Dest arg

/-- Source: `round_to<Dest>(arg)`. -/
def round_to (checking : Nat) (Dest : IntType) (DeducedSrc : FloatType) (arg : ℚ) :
    Result :=
  if checking > 0 ∧
      ((int_to_floating DeducedSrc Dest.max : ℚ) < arg
        ∨ (int_to_floating DeducedSrc Dest.min : ℚ) > arg) then
    .overflow_error "number too large for conversion"
  else
    floating_to_integral Dest
      (if Dest.is_signed = true ∧ arg < 0 then floating_sub DeducedSrc arg (1 / 2)
        else floating_add DeducedSrc arg (1 / 2))

/-! ## `promote_to` -/

/-- An arithmetic type: `bool`, an integer type, or a floating-point type. -/
inductive CType where
  | bool
  | integral (T : IntType)
  | floating_point (F : FloatType)
deriving DecidableEq, Repr

/-- The constant `sizeof(T)`; `sizeof(bool)` is `1`. -/
def CType.sizeof : CType → Nat
  | .bool => 1
  | .integral T => T.sizeof
  | .floating_point F => F.sizeof

/-- The trait `std::is_integral_v`. -/
def is_integral_v : CType → Bool
  | .bool => true
  | .integral _ => true
  | .floating_point _ => false

/-- The trait `std::is_floating_point_v`. -/
def is_floating_point_v : CType → Bool
  | .bool => false
  | .integral _ => false
  | .floating_point _ => true

/-- The trait `std::is_arithmetic_v`. -/
def is_arithmetic_v (T : CType) : Bool := is_integral_v T || is_floating_point_v T

/-- The trait `std::is_signed_v`: `T(-1) < T(0)`, which holds of a signed integer
type and of every floating-point type. -/
def is_signed_v : CType → Bool
  | .bool => false
  | .integral T => T.is_signed
  | .floating_point _ => true

/-- The trait `std::is_unsigned_v`: `T(0) < T(-1)`. -/
def is_unsigned_v : CType → Bool
  | .bool => true
  | .integral T => !T.is_signed
  | .floating_point _ => false

/-- The test `std::is_same_v<FixSrc, std::false_type> ||
std::is_same_v<FixSrc, DeducedSrc>`; `none` is the default `std::false_type`. -/
def FixSrc_matches (FixSrc : Option CType) (DeducedSrc : CType) : Bool :=
  FixSrc == none || FixSrc == some DeducedSrc

/-- Source: the `std::enable_if_t` condition of `promote_to`. -/
def promote_to_enabled (Dest : CType) (FixSrc : Option CType) (DeducedSrc : CType) :
    Bool :=
  FixSrc_matches FixSrc DeducedSrc
  && decide (Dest.sizeof > DeducedSrc.sizeof)
  && ((is_floating_point_v Dest && is_arithmetic_v DeducedSrc)
      || (is_integral_v Dest && is_signed_v Dest && is_integral_v DeducedSrc)
      || (is_unsigned_v Dest && is_unsigned_v DeducedSrc))

/-- Source: `promote_to<Dest>(arg)` on integer types. -/
def promote_to (Dest _DeducedSrc : IntType) (arg : Int) : Int :=
  static_cast Dest arg


/-! ## Compile-time conditions of the other templates -/

/-- Source: the `std::enable_if_t` condition of `to_signed<FixDest>` and,
word for word, of `to_signed_cast<FixDest>`. -/
def to_signed_FixDest_enabled (FixDest : CType) (FixSrc : Option CType)
    (DeducedSrc : CType) : Bool :=
  FixSrc_matches FixSrc DeducedSrc && is_signed_v FixDest && is_unsigned_v DeducedSrc

/-- Source: the `std::enable_if_t` condition of `to_unsigned<FixDest>` and,
word for word, of `to_unsigned_cast<FixDest>`.  It does not mention
`FixDest`. -/
def to_unsigned_FixDest_enabled (_FixDest : CType) (FixSrc : Option CType)
    (DeducedSrc : CType) : Bool :=
  FixSrc_matches FixSrc DeducedSrc && is_signed_v DeducedSrc

/-- Source: the `std::enable_if_t` condition of `narrow_to`. -/
def narrow_to_enabled (Dest : CType) (FixSrc : Option CType) (DeducedSrc : CType) :
    Bool :=
  FixSrc_matches FixSrc DeducedSrc
  && is_integral_v Dest
  && is_integral_v DeducedSrc
  && (is_signed_v Dest == is_signed_v DeducedSrc)
  && decide (Dest.sizeof < DeducedSrc.sizeof)

/-- Source: the `std::enable_if_t` condition of `narrow_cast_to`. -/
def narrow_cast_to_enabled (Dest : CType) (FixSrc : Option CType) (DeducedSrc : CType) :
    Bool :=
  FixSrc_matches FixSrc DeducedSrc
  && is_integral_v Dest
  && is_integral_v DeducedSrc
  && decide (Dest.sizeof < DeducedSrc.sizeof)

/-- Source: the `std::enable_if_t` condition of `approx_to`. -/
def approx_to_enabled (Dest : CType) (FixSrc : Option CType) (DeducedSrc : CType) :
    Bool :=
  FixSrc_matches FixSrc DeducedSrc
  && is_floating_point_v Dest
  && ((is_floating_point_v DeducedSrc && decide (Dest.sizeof < DeducedSrc.sizeof))
      || (is_integral_v DeducedSrc && decide (Dest.sizeof ≤ DeducedSrc.sizeof)))

/-- Source: the `std::enable_if_t` condition of `truncate_to` and, word for
word, of `round_to`. -/
def truncate_to_enabled (Dest : CType) (FixSrc : Option CType) (DeducedSrc : CType) :
    Bool :=
  FixSrc_matches FixSrc DeducedSrc
  && is_floating_point_v DeducedSrc
  && !is_floating_point_v Dest

/-! ## The destination `bool`

A conversion to `bool` is a test against zero, not a reduction modulo a power
of two and not a truncation; `false` and `true` are the values `0` and `1`. -/

/-- Conversion `static_cast<bool>(v)` of an integer value. -/
def static_cast_bool (v : Int) : Int := if v = 0 then 0 else 1

/-- Conversion `static_cast<bool>(y)` of a floating value. -/
def floating_to_bool (y : ℚ) : Result := .returns (if y = 0 then 0 else 1)

/-- Source: `narrow_cast_to<bool>(arg)`, the template `narrow_cast_to` at
`Dest = bool`. -/
def narrow_cast_to_bool (_DeducedSrc : IntType) (arg : Int) : Int :=
  static_cast_bool arg

/-- Source: `round_to<bool>(arg)`, the template `round_to` at `Dest = bool`;
`std::is_signed_v<bool>` is false, so the sum is always `arg + 0.5`. -/
def round_to_bool (checking : Nat) (DeducedSrc : FloatType) (arg : ℚ) : Result :=
  if checking > 0 ∧
      ((int_to_floating DeducedSrc 1 : ℚ) < arg
        ∨ (int_to_floating DeducedSrc 0 : ℚ) > arg) then
    .overflow_error "number too large for conversion"
  else
    floating_to_bool (floating_add DeducedSrc arg (1 / 2))

/-! ## `promote_here` -/

/-- Source: the `std::enable_if_t` condition of the class template
`promote_here<Dest, FixSrc>`. -/
def promote_here_class_enabled (Dest : CType) : Bool := is_arithmetic_v Dest

/-- Source: the `std::enable_if_t` condition of the converting constructor of
`promote_here<Dest, FixSrc>`; `std::is_same_v<Dest, DeducedSrc>` is equality of
the two types. -/
def promote_here_enabled (Dest : CType) (FixSrc : Option CType) (DeducedSrc : CType) :
    Bool :=
  FixSrc_matches FixSrc DeducedSrc
  && (decide (Dest.sizeof > DeducedSrc.sizeof) || Dest == DeducedSrc)
  && (Dest == DeducedSrc
      || (is_floating_point_v Dest && is_arithmetic_v DeducedSrc)
      || (is_integral_v Dest && is_signed_v Dest && is_integral_v DeducedSrc)
      || (is_unsigned_v Dest && is_unsigned_v DeducedSrc))

/-- Source: an object of class `promote_here<Dest, FixSrc>`; its one data
member is `Dest v`, here of the value type `V`. -/
structure promote_here (V : Type) where
  v : V
deriving DecidableEq, Repr

/-- Source: the constructor `promote_here(DeducedSrc uv) : v(static_cast<Dest>(uv))`
for an integer `Dest`. -/
def promote_here.construct (Dest _DeducedSrc : IntType) (uv : Int) : promote_here Int :=
  ⟨static_cast Dest uv⟩

/-- Source: `operator Dest() const`. -/
def promote_here.operator_Dest {V : Type} (w : promote_here V) : V := w.v

/-- Source: `Dest operator ()() const`. -/
def promote_here.operator_call {V : Type} (w : promote_here V) : V := w.v

/-! ## Specification-side notions -/

/-- The value `r` is the one value of type `T` congruent to `x` modulo
`2 ^ T.bits`. -/
def is_wrapped (T : IntType) (x r : Int) : Prop :=
  T.min ≤ r ∧ r ≤ T.max ∧ r ≡ x [ZMOD 2 ^ T.bits]
    ∧ ∀ v : Int, T.min ≤ v → v ≤ T.max → v ≡ x [ZMOD 2 ^ T.bits] → v = r

/-- The value `r` is the one value of the range `[lo, hi]` congruent to `x`
modulo `2 ^ w`. -/
def is_congruent_in_range (lo hi : Int) (w : Nat) (x r : Int) : Prop :=
  lo ≤ r ∧ r ≤ hi ∧ r ≡ x [ZMOD 2 ^ w]
    ∧ ∀ v : Int, lo ≤ v → v ≤ hi → v ≡ x [ZMOD 2 ^ w] → v = r

/-- The integer `n` is nearest to `x`, a tie being resolved away from zero. -/
def is_nearest_away_from_zero (x : ℚ) (n : Int) : Prop :=
  |x - n| ≤ 1 / 2 ∧ (|x - n| = 1 / 2 → |x| < |(n : ℚ)|)

end numeric_conversions

open numeric_conversions

/-! # `smart_numerical_casts.h`

Each class holds a `const FromType v` and converts it in its conversion
operator; `DEBUG` says whether `_DEBUG` is defined. -/

namespace smart_numerical_casts

/-- The macro `INT_MAX`, of type `int`. -/
def INT_MAX : Int := 2147483647

/-- Source: `to_signed::operator const int()`, with `v` a value of type
`size_t`, whose width is left to the platform. -/
def to_signed (DEBUG : Bool) (v : Int) : Result :=
  if DEBUG = true ∧ cmp_lt int (static_cast int v) int 0 = true then
    .overflow_error "unsigned int too large to convert to signed"
  else
    .returns (static_cast int v)

/-- Source: `trunc_to_int::operator const int()`, with `v` of type `double`.
The bounds `INT_MAX` and `-INT_MAX` are of type `int` and are converted to
`double` for the comparisons. -/
def trunc_to_int (DEBUG : Bool) (v : ℚ) : Result :=
  if DEBUG = true ∧
      (v > (int_to_floating double INT_MAX : ℚ)
        ∨ v < (int_to_floating double (static_cast int (-INT_MAX)) : ℚ)) then
    .overflow_error "double too large to convert to int"
  else
    floating_to_integral int v

/-- Source: `round_to_int::operator const int()`, with `v` of type `double`. -/
def round_to_int (DEBUG : Bool) (v : ℚ) : Result :=
  if DEBUG = true ∧
      (v > (int_to_floating double INT_MAX : ℚ)
        ∨ v < (int_to_floating double (static_cast int (-INT_MAX)) : ℚ)) then
    .overflow_error "double too large to convert to int"
  else
    floating_to_integral int
      (if v < 0 then floating_sub double v (1 / 2) else floating_add double v (1 / 2))

end smart_numerical_casts

/-! # Properties -/

/-! ### Integer ranges and conversions -/

theorem two_pow_pos_int (n : Nat) : (0 : Int) < 2 ^ n := by positivity

theorem two_pow_mono_int {a b : Nat} (h : a ≤ b) : (2 : Int) ^ a ≤ 2 ^ b :=
  pow_le_pow_right₀ (by norm_num) h

theorem bits_split (T : IntType) (h : 0 < T.sizeof) :
    (2 : Int) ^ T.bits = 2 * 2 ^ (T.bits - 1) := by
  have : T.bits = (T.bits - 1) + 1 := by unfold IntType.bits; omega
  conv_lhs => rw [this]
  rw [pow_succ]; ring

/-- A value of `A` is a value of `C` when `C` is signed and larger, or signed
like `A` and no smaller, or unsigned, no smaller, and the value is not
negative. -/
theorem in_range_of_wider (A C : IntType) (v : Int) (hA : 0 < A.sizeof)
    (hv : A.min ≤ v ∧ v ≤ A.max)
    (h : (C.is_signed = true ∧ (A.sizeof < C.sizeof ∨ (A.is_signed = true ∧ A.sizeof ≤ C.sizeof)))
      ∨ (C.is_signed = false ∧ A.sizeof ≤ C.sizeof ∧ 0 ≤ v)) :
    C.min ≤ v ∧ v ≤ C.max := by
  obtain ⟨hv1, hv2⟩ := hv
  have hAs := bits_split A hA
  have hpA := two_pow_pos_int (A.bits - 1)
  have hpC := two_pow_pos_int (C.bits - 1)
  unfold IntType.min IntType.max at *
  rcases h with ⟨hC, h⟩ | ⟨hC, hle, h0⟩
  · simp only [hC, if_true]
    rcases h with hlt | ⟨hAsg, hle⟩
    · have hm : (2 : Int) ^ A.bits ≤ 2 ^ (C.bits - 1) :=
        two_pow_mono_int (by unfold IntType.bits; omega)
      cases hAsg : A.is_signed <;> simp only [hAsg, if_true, Bool.false_eq_true, if_false] at hv1 hv2 <;>
        omega
    · have hm : (2 : Int) ^ (A.bits - 1) ≤ 2 ^ (C.bits - 1) :=
        two_pow_mono_int (by unfold IntType.bits; omega)
      simp only [hAsg, if_true] at hv1 hv2
      omega
  · simp only [hC, Bool.false_eq_true, if_false]
    have hm : (2 : Int) ^ A.bits ≤ 2 ^ C.bits :=
      two_pow_mono_int (by unfold IntType.bits; omega)
    cases hAsg : A.is_signed <;> simp only [hAsg, if_true, Bool.false_eq_true, if_false] at hv1 hv2 <;>
      omega

theorem static_cast_eq_self_iff (T : IntType) (h : 0 < T.sizeof) (v : Int) :
    static_cast T v = v ↔ T.min ≤ v ∧ v ≤ T.max := by
  have hs := bits_split T h
  have hp := two_pow_pos_int (T.bits - 1)
  unfold static_cast IntType.min IntType.max
  cases hsg : T.is_signed
  · simp only [Bool.false_eq_true, if_false]
    have hM : (0 : Int) < 2 ^ T.bits := two_pow_pos_int _
    constructor
    · intro e
      have h1 := Int.emod_nonneg v (ne_of_gt hM)
      have h2 := Int.emod_lt_of_pos v hM
      omega
    · rintro ⟨h1, h2⟩
      exact Int.emod_eq_of_lt h1 (by omega)
  · simp only [if_true]
    rw [hs]
    have hM : (0 : Int) < 2 * 2 ^ (T.bits - 1) := by omega
    constructor
    · intro e
      have h1 := Int.emod_nonneg (v + 2 ^ (T.bits - 1)) (ne_of_gt hM)
      have h2 := Int.emod_lt_of_pos (v + 2 ^ (T.bits - 1)) hM
      omega
    · rintro ⟨h1, h2⟩
      rw [Int.emod_eq_of_lt (by omega) (by omega)]; omega

theorem static_cast_range (T : IntType) (h : 0 < T.sizeof) (v : Int) :
    T.min ≤ static_cast T v ∧ static_cast T v ≤ T.max := by
  have hs := bits_split T h
  have hp := two_pow_pos_int (T.bits - 1)
  unfold static_cast IntType.min IntType.max
  cases hsg : T.is_signed
  · simp only [Bool.false_eq_true, if_false]
    have hM : (0 : Int) < 2 ^ T.bits := two_pow_pos_int _
    have h1 := Int.emod_nonneg v (ne_of_gt hM)
    have h2 := Int.emod_lt_of_pos v hM
    omega
  · simp only [if_true]
    rw [hs]
    have hM : (0 : Int) < 2 * 2 ^ (T.bits - 1) := by omega
    have h1 := Int.emod_nonneg (v + 2 ^ (T.bits - 1)) (ne_of_gt hM)
    have h2 := Int.emod_lt_of_pos (v + 2 ^ (T.bits - 1)) hM
    omega

theorem static_cast_modEq (T : IntType) (v : Int) :
    static_cast T v ≡ v [ZMOD 2 ^ T.bits] := by
  unfold static_cast
  split
  · have : (v + 2 ^ (T.bits - 1)) % 2 ^ T.bits ≡ v + 2 ^ (T.bits - 1) [ZMOD 2 ^ T.bits] :=
      Int.mod_modEq _ _
    have := this.sub_right (2 ^ (T.bits - 1))
    simpa using this
  · exact Int.mod_modEq _ _


theorem usual_arithmetic_conversions_shape (A B : IntType) :
    A.sizeof ≤ (usual_arithmetic_conversions A B).sizeof
    ∧ B.sizeof ≤ (usual_arithmetic_conversions A B).sizeof
    ∧ ((usual_arithmetic_conversions A B).is_signed = true →
        (A.sizeof < (usual_arithmetic_conversions A B).sizeof ∨ A.is_signed = true)
        ∧ (B.sizeof < (usual_arithmetic_conversions A B).sizeof ∨ B.is_signed = true)) := by
  obtain ⟨sa, na⟩ := A
  obtain ⟨sb, nb⟩ := B
  unfold usual_arithmetic_conversions integral_promotion int
  cases sa <;> cases sb <;> simp only [] <;> split_ifs <;> simp_all <;> omega

/-- The common type of a comparison keeps a value of either operand type
unchanged when the value is not negative or the common type is signed. -/
theorem usual_arithmetic_conversions_keeps (A B : IntType) (v : Int)
    (hA : 0 < A.sizeof) (hB : 0 < B.sizeof)
    (hv : (A.min ≤ v ∧ v ≤ A.max) ∨ (B.min ≤ v ∧ v ≤ B.max))
    (h : 0 ≤ v ∨ (usual_arithmetic_conversions A B).is_signed = true) :
    static_cast (usual_arithmetic_conversions A B) v = v := by
  obtain ⟨h1, h2, h3⟩ := usual_arithmetic_conversions_shape A B
  have hC : 0 < (usual_arithmetic_conversions A B).sizeof := by omega
  rw [static_cast_eq_self_iff _ hC]
  cases hs : (usual_arithmetic_conversions A B).is_signed
  · have h0 : 0 ≤ v := by simpa [hs] using h
    rcases hv with hv | hv
    · exact in_range_of_wider A _ v hA hv (Or.inr ⟨hs, h1, h0⟩)
    · exact in_range_of_wider B _ v hB hv (Or.inr ⟨hs, h2, h0⟩)
  · obtain ⟨h4, h5⟩ := h3 hs
    rcases hv with hv | hv
    · refine in_range_of_wider A _ v hA hv (Or.inl ⟨hs, ?_⟩)
      rcases h4 with h4 | h4
      · exact Or.inl h4
      · exact Or.inr ⟨h4, h1⟩
    · refine in_range_of_wider B _ v hB hv (Or.inl ⟨hs, ?_⟩)
      rcases h5 with h5 | h5
      · exact Or.inl h5
      · exact Or.inr ⟨h5, h2⟩

theorem usual_arithmetic_conversions_signed (A B : IntType)
    (hA : A.is_signed = true) (hB : B.is_signed = true) :
    (usual_arithmetic_conversions A B).is_signed = true := by
  obtain ⟨sa, na⟩ := A
  obtain ⟨sb, nb⟩ := B
  simp only at hA hB
  subst hA hB
  unfold usual_arithmetic_conversions integral_promotion int
  simp only []
  split_ifs <;> simp_all

/-- A comparison `a != b` is the comparison of the two values when neither is
negative or the common type is signed. -/
theorem cmp_ne_exact (A B : IntType) (a b : Int) (hA : 0 < A.sizeof) (hB : 0 < B.sizeof)
    (ha : A.min ≤ a ∧ a ≤ A.max) (hb : B.min ≤ b ∧ b ≤ B.max)
    (h : (0 ≤ a ∧ 0 ≤ b) ∨ (usual_arithmetic_conversions A B).is_signed = true) :
    cmp_ne A a B b = (a != b) := by
  unfold cmp_ne
  simp only
  rw [usual_arithmetic_conversions_keeps A B a hA hB (Or.inl ha) (h.imp (fun h => h.1) id),
    usual_arithmetic_conversions_keeps A B b hA hB (Or.inr hb) (h.imp (fun h => h.2) id)]

/-- A comparison `v < 0` of a signed value with the literal `0` is the
comparison of the values. -/
theorem cmp_lt_zero (T : IntType) (v : Int) (hT : T.is_signed = true) (hsz : 0 < T.sizeof)
    (hv : T.min ≤ v ∧ v ≤ T.max) :
    cmp_lt T v int 0 = decide (v < 0) := by
  unfold cmp_lt
  simp only
  have hs := usual_arithmetic_conversions_signed T int hT rfl
  rw [usual_arithmetic_conversions_keeps T int v hsz (by decide) (Or.inl hv) (Or.inr hs),
    usual_arithmetic_conversions_keeps T int 0 hsz (by decide) (Or.inr (by decide)) (Or.inr hs)]

theorem make_signed_t_bits (T : IntType) : (make_signed_t T).bits = T.bits := rfl

theorem make_unsigned_t_bits (T : IntType) : (make_unsigned_t T).bits = T.bits := rfl

theorem make_signed_t_min (T : IntType) : (make_signed_t T).min = -(2 ^ (T.bits - 1)) := rfl

theorem make_signed_t_max (T : IntType) : (make_signed_t T).max = 2 ^ (T.bits - 1) - 1 := rfl

theorem make_unsigned_t_min (T : IntType) : (make_unsigned_t T).min = 0 := rfl

theorem make_unsigned_t_max (T : IntType) : (make_unsigned_t T).max = 2 ^ T.bits - 1 := rfl

/-- C1. In checked mode (and in unchecked mode too), for an unsigned type `U`
and a value `u` of it with `u ≤ 2 ^ (w - 1) - 1`, `to_signed(u)` returns `u`
without throwing, and `to_unsigned` of that result returns `u` without
throwing. -/
theorem to_signed_to_unsigned_roundtrip (checking : Nat) (U : IntType) (u : Int)
    (_hU : U.is_signed = false) (hsz : 0 < U.sizeof)
    (h0 : 0 ≤ u) (hmax : u ≤ 2 ^ (U.bits - 1) - 1) :
    to_signed checking U u = .returns u
    ∧ to_unsigned checking (make_signed_t U) u = .returns u := by
  have hp := two_pow_pos_int (U.bits - 1)
  have hs := bits_split U hsz
  have hr : (make_signed_t U).min ≤ u ∧ u ≤ (make_signed_t U).max := by
    rw [make_signed_t_min, make_signed_t_max]
    omega
  constructor
  · unfold to_signed
    simp only
    rw [(static_cast_eq_self_iff (make_signed_t U) hsz u).2 hr,
      cmp_lt_zero (make_signed_t U) u rfl hsz hr]
    simp [not_lt.2 h0]
  · unfold to_unsigned
    rw [cmp_lt_zero (make_signed_t U) u rfl hsz hr]
    have hr2 : (make_unsigned_t (make_signed_t U)).min ≤ u
        ∧ u ≤ (make_unsigned_t (make_signed_t U)).max := by
      rw [make_unsigned_t_min, make_unsigned_t_max, make_signed_t_bits]
      omega
    rw [(static_cast_eq_self_iff (make_unsigned_t (make_signed_t U)) hsz u).2 hr2]
    simp [not_lt.2 h0]

/-- Witness of C1: `unsigned int` and the value `2147483647`. -/
theorem to_signed_to_unsigned_roundtrip_witness :
    to_signed 1 unsigned_int 2147483647 = .returns 2147483647
    ∧ to_unsigned 1 (make_signed_t unsigned_int) 2147483647 = .returns 2147483647 :=
  to_signed_to_unsigned_roundtrip 1 unsigned_int 2147483647 rfl (by decide) (by decide)
    (by decide)

/-- C2. In checked mode, for an unsigned type `U` and a value `u` of it above
`2 ^ (w - 1) - 1`, `to_signed(u)` throws `std::overflow_error` and so returns
no value. -/
theorem to_signed_signals_above_signed_max (checking : Nat) (U : IntType) (u : Int)
    (hc : 0 < checking) (hU : U.is_signed = false) (hsz : 0 < U.sizeof)
    (hgt : 2 ^ (U.bits - 1) - 1 < u) (hu : u ≤ U.max) :
    to_signed checking U u = .overflow_error "conversion to signed overflow" := by
  have hp := two_pow_pos_int (U.bits - 1)
  have hs := bits_split U hsz
  have hr := static_cast_range (make_signed_t U) hsz u
  have hneg : static_cast (make_signed_t U) u < 0 := by
    have hM : (0 : Int) < 2 * 2 ^ (U.bits - 1) := by omega
    simp only [IntType.max, hU, Bool.false_eq_true, if_false] at hu
    have hd : static_cast (make_signed_t U) u
        = (u + 2 ^ (U.bits - 1)) % 2 ^ U.bits - 2 ^ (U.bits - 1) := rfl
    rw [hd, hs]
    have e : (u + 2 ^ (U.bits - 1)) % (2 * 2 ^ (U.bits - 1))
        = u + 2 ^ (U.bits - 1) - 2 * 2 ^ (U.bits - 1) := by
      rw [Int.emod_eq_sub_self_emod, Int.emod_eq_of_lt (by omega) (by omega)]
    omega
  unfold to_signed
  simp only
  rw [cmp_lt_zero (make_signed_t U) _ rfl hsz hr]
  simp [hc, hneg]

/-- Witness of C2: `unsigned int` and the value `2147483648`. -/
theorem to_signed_signals_above_signed_max_witness :
    to_signed 1 unsigned_int 2147483648 = .overflow_error "conversion to signed overflow" :=
  to_signed_signals_above_signed_max 1 unsigned_int 2147483648 (by decide) rfl (by decide)
    (by decide) (by decide)

/-- C3. At `u = 2147483648`, a value of `unsigned int` above the maximum of
`int`, the explicit-destination `to_signed<int>(u)` in checked mode returns
`-2147483648` and does not throw: the comparison `ts != arg` converts `ts` to
`unsigned int`, where it equals `arg`.  The same happens for a narrower
destination (`to_signed<short>(4294967295u)` returns `-1`) and at 64 bits,
while the inferred-destination `to_signed` throws at the same input. -/
theorem to_signed_FixDest_misses_overflow :
    int.max < 2147483648 ∧ 2147483648 ≤ unsigned_int.max
    ∧ to_signed_FixDest 1 int unsigned_int 2147483648 = .returns (-2147483648)
    ∧ cmp_ne int (-2147483648) unsigned_int 2147483648 = false
    ∧ to_signed_FixDest 1 short unsigned_int 4294967295 = .returns (-1)
    ∧ to_signed_FixDest 1 long_long unsigned_long_long 9223372036854775808
        = .returns (-9223372036854775808)
    ∧ to_signed 1 unsigned_int 2147483648
        = .overflow_error "conversion to signed overflow" := by
  decide

/-- C4. In checked mode, for a signed type `S` and a value `s` of it, the
inferred-destination `to_unsigned(s)` throws exactly when `s < 0`, and returns
`s` when `s ≥ 0`. -/
theorem to_unsigned_signals_iff_negative (checking : Nat) (S : IntType) (s : Int)
    (hc : 0 < checking) (hS : S.is_signed = true) (hsz : 0 < S.sizeof)
    (hmin : S.min ≤ s) (hmax : s ≤ S.max) :
    ((to_unsigned checking S s).signals = true ↔ s < 0)
    ∧ (s < 0 → to_unsigned checking S s = .overflow_error "signed to unsigned overflow")
    ∧ (0 ≤ s → to_unsigned checking S s = .returns s) := by
  have hp := two_pow_pos_int (S.bits - 1)
  have hs := bits_split S hsz
  have hcmp := cmp_lt_zero S s hS hsz ⟨hmin, hmax⟩
  have hneg : s < 0 → to_unsigned checking S s
      = .overflow_error "signed to unsigned overflow" := by
    intro h
    unfold to_unsigned
    rw [hcmp]
    simp [hc, h]
  have hpos : 0 ≤ s → to_unsigned checking S s = .returns s := by
    intro h
    unfold to_unsigned
    rw [hcmp]
    have hr : (make_unsigned_t S).min ≤ s ∧ s ≤ (make_unsigned_t S).max := by
      rw [make_unsigned_t_min, make_unsigned_t_max]
      simp only [IntType.max, hS, if_true] at hmax
      omega
    rw [(static_cast_eq_self_iff (make_unsigned_t S) hsz s).2 hr]
    simp [not_lt.2 h]
  refine ⟨?_, hneg, hpos⟩
  constructor
  · intro h
    by_contra hn
    rw [hpos (not_lt.1 hn)] at h
    simp [Result.signals] at h
  · intro h
    rw [hneg h]
    rfl

/-- Witness of C4: `int` and the value `-1`. -/
theorem to_unsigned_signals_iff_negative_witness :
    ((to_unsigned 1 int (-1)).signals = true ↔ (-1 : Int) < 0)
    ∧ ((-1 : Int) < 0 → to_unsigned 1 int (-1)
        = .overflow_error "signed to unsigned overflow")
    ∧ ((0 : Int) ≤ -1 → to_unsigned 1 int (-1) = .returns (-1)) :=
  to_unsigned_signals_iff_negative 1 int (-1) (by decide) rfl (by decide) (by decide)
    (by decide)

/-- C5. At `s = -1`, a negative value of `int`, the explicit-destination
`to_unsigned<unsigned int>(s)` in checked mode returns `4294967295` and does
not throw: the comparison `tus != arg` converts `arg` to `unsigned int`, where
it equals `tus`.  The same happens for a wider destination and for a source
narrower than `int`, while the inferred-destination `to_unsigned` throws at
the same input. -/
theorem to_unsigned_FixDest_misses_negative :
    to_unsigned_FixDest 1 unsigned_int int (-1) = .returns 4294967295
    ∧ cmp_ne unsigned_int 4294967295 int (-1) = false
    ∧ to_unsigned_FixDest 1 unsigned_long_long int (-1) = .returns 18446744073709551615
    ∧ to_unsigned_FixDest 1 unsigned_int signed_char (-1) = .returns 4294967295
    ∧ to_unsigned 1 int (-1) = .overflow_error "signed to unsigned overflow" := by
  decide

/-- C6. In checked mode, for integer types `Dest` and `Src` of one signedness
with `Dest` strictly narrower, and a value `x` of `Src`: `narrow_to<Dest>(x)`
throws exactly when `x` is outside `[min(Dest), max(Dest)]`, returns `x` when
it is inside, and whatever it returns converts back to `Src` as `x`. -/
theorem narrow_to_signals_iff_out_of_range (checking : Nat) (Dest Src : IntType) (x : Int)
    (hc : 0 < checking) (hsg : Dest.is_signed = Src.is_signed)
    (hD : 0 < Dest.sizeof) (hlt : Dest.sizeof < Src.sizeof)
    (hmin : Src.min ≤ x) (hmax : x ≤ Src.max) :
    ((narrow_to checking Dest Src x).signals = true ↔ (x < Dest.min ∨ Dest.max < x))
    ∧ (Dest.min ≤ x ∧ x ≤ Dest.max → narrow_to checking Dest Src x = .returns x)
    ∧ (∀ v, narrow_to checking Dest Src x = .returns v → static_cast Src v = x) := by
  have hS : 0 < Src.sizeof := by omega
  have hr := static_cast_range Dest hD x
  have hcmp : cmp_ne Dest (static_cast Dest x) Src x = (static_cast Dest x != x) := by
    refine cmp_ne_exact Dest Src _ x hD hS hr ⟨hmin, hmax⟩ ?_
    cases hs : Src.is_signed
    · left
      rw [hs] at hsg
      simp only [IntType.min, hsg, hs, Bool.false_eq_true, if_false] at hr hmin
      exact ⟨hr.1, hmin⟩
    · right
      rw [hs] at hsg
      exact usual_arithmetic_conversions_signed Dest Src hsg hs
  have hin : Dest.min ≤ x ∧ x ≤ Dest.max → narrow_to checking Dest Src x = .returns x := by
    intro h
    have e := (static_cast_eq_self_iff Dest hD x).2 h
    unfold narrow_to
    simp only
    rw [hcmp, e]
    simp
  have hout : ¬ (Dest.min ≤ x ∧ x ≤ Dest.max) → narrow_to checking Dest Src x
      = .overflow_error "integer narrowing overflow" := by
    intro h
    have e : static_cast Dest x ≠ x := fun e => h ((static_cast_eq_self_iff Dest hD x).1 e)
    unfold narrow_to
    simp only
    rw [hcmp]
    simp [hc, e]
  refine ⟨?_, hin, ?_⟩
  · constructor
    · intro h
      by_contra hn
      rw [hin (by omega)] at h
      simp [Result.signals] at h
    · intro h
      rw [hout (by omega)]
      rfl
  · intro v hv
    by_cases h : Dest.min ≤ x ∧ x ≤ Dest.max
    · rw [hin h] at hv
      injection hv with hv
      rw [← hv]
      exact (static_cast_eq_self_iff Src hS x).2 ⟨hmin, hmax⟩
    · rw [hout h] at hv
      cases hv

/-- Witness of C6: `narrow_to<short>` of the `int` value `40000`. -/
theorem narrow_to_signals_iff_out_of_range_witness :
    ((narrow_to 1 short int 40000).signals = true ↔ ((40000 : Int) < short.min ∨ short.max < 40000))
    ∧ (short.min ≤ 40000 ∧ (40000 : Int) ≤ short.max → narrow_to 1 short int 40000 = .returns 40000)
    ∧ (∀ v, narrow_to 1 short int 40000 = .returns v → static_cast int v = 40000) :=
  narrow_to_signals_iff_out_of_range 1 short int 40000 (by decide) rfl (by decide) (by decide)
    (by decide) (by decide)

theorem is_wrapped_static_cast (T : IntType) (hT : 0 < T.sizeof) (x : Int) :
    is_wrapped T x (static_cast T x) := by
  obtain ⟨h1, h2⟩ := static_cast_range T hT x
  refine ⟨h1, h2, static_cast_modEq T x, ?_⟩
  intro v hv1 hv2 hv
  have hd : (2 : Int) ^ T.bits ∣ v - static_cast T x :=
    (Int.ModEq.dvd ((static_cast_modEq T x).trans hv.symm))
  have hs := bits_split T hT
  have hp := two_pow_pos_int (T.bits - 1)
  have hlt : |v - static_cast T x| < 2 ^ T.bits := by
    rw [abs_lt]
    simp only [IntType.min, IntType.max] at h1 h2 hv1 hv2
    cases hsg : T.is_signed <;>
      simp only [hsg, if_true, Bool.false_eq_true, if_false] at h1 h2 hv1 hv2 <;> omega
  have := Int.eq_zero_of_abs_lt_dvd hd hlt
  omega

/-- Counterexample to C7: `narrow_cast_to<bool>` is accepted for an
`unsigned int` source and turns `2` into `1` (`true`), which is congruent to
`2` modulo no power `2 ^ w` with `w > 0`. -/
theorem narrow_cast_to_bool_not_modular :
    narrow_cast_to_enabled .bool none (.integral unsigned_int) = true
    ∧ narrow_cast_to_bool unsigned_int 2 = 1
    ∧ ∀ w : Nat, 0 < w → ¬ (narrow_cast_to_bool unsigned_int 2 ≡ 2 [ZMOD 2 ^ w]) := by
  refine ⟨by decide, by decide, ?_⟩
  intro w hw h
  have h1 : narrow_cast_to_bool unsigned_int 2 = 1 := by decide
  rw [h1] at h
  have hd : (2 : Int) ^ w ∣ 2 - 1 := h.dvd
  have hle : (2 : Int) ^ w ≤ 2 - 1 := Int.le_of_dvd (by norm_num) hd
  have h2 : (2 : Int) ^ 1 ≤ 2 ^ w := two_pow_mono_int hw
  omega

theorem is_congruent_in_range_signed (T : IntType) (hT : 0 < T.sizeof)
    (hs : T.is_signed = true) (x : Int) :
    is_congruent_in_range (-(2 ^ (8 * T.sizeof - 1))) (2 ^ (8 * T.sizeof - 1) - 1)
      (8 * T.sizeof) x (static_cast T x) := by
  have h := is_wrapped_static_cast T hT x
  simpa [is_wrapped, is_congruent_in_range, IntType.min, IntType.max, IntType.bits, hs] using h

theorem is_congruent_in_range_unsigned (T : IntType) (hT : 0 < T.sizeof)
    (hs : T.is_signed = false) (x : Int) :
    is_congruent_in_range 0 (2 ^ (8 * T.sizeof) - 1) (8 * T.sizeof) x (static_cast T x) := by
  have h := is_wrapped_static_cast T hT x
  simpa [is_wrapped, is_congruent_in_range, IntType.min, IntType.max, IntType.bits, hs] using h

/-- C7, amended. The unchecked variants are total functions with no throwing
path and no dependence on the build switch.  For integer types other than
`bool` and every integer `x`, each returns the one value of its destination
range congruent to `x` modulo `2 ^ w`, with `w` the destination width: the
signed range `[-2 ^ (w-1), 2 ^ (w-1) - 1]` for `to_signed_cast` and a signed
destination of `narrow_cast_to`, the unsigned range `[0, 2 ^ w - 1]` for
`to_unsigned_cast` and an unsigned destination of `narrow_cast_to`.  Hence
`to_signed_cast(u) = u - 2 ^ w` for an unsigned `u` above `2 ^ (w-1) - 1`,
`to_unsigned_cast(s) = s + 2 ^ w` for a negative `s`, and `narrow_cast_to` to an
unsigned type is `x mod 2 ^ w`. -/
theorem cast_variants_wrap (Ds Du U S : IntType) (x u s : Int)
    (hDs : 0 < Ds.sizeof) (hDu : 0 < Du.sizeof) (hU : 0 < U.sizeof) (hS : 0 < S.sizeof)
    (hDss : Ds.is_signed = true) (hDuu : Du.is_signed = false)
    (_hUu : U.is_signed = false) (_hSs : S.is_signed = true)
    (hu1 : 2 ^ (8 * U.sizeof - 1) - 1 < u) (hu2 : u ≤ 2 ^ (8 * U.sizeof) - 1)
    (hs1 : -(2 ^ (8 * S.sizeof - 1)) ≤ s) (hs2 : s < 0) :
    is_congruent_in_range (-(2 ^ (8 * U.sizeof - 1))) (2 ^ (8 * U.sizeof - 1) - 1)
        (8 * U.sizeof) x (to_signed_cast U x)
    ∧ is_congruent_in_range (-(2 ^ (8 * Ds.sizeof - 1))) (2 ^ (8 * Ds.sizeof - 1) - 1)
        (8 * Ds.sizeof) x (to_signed_cast_FixDest Ds U x)
    ∧ is_congruent_in_range 0 (2 ^ (8 * S.sizeof) - 1) (8 * S.sizeof) x (to_unsigned_cast S x)
    ∧ is_congruent_in_range 0 (2 ^ (8 * Du.sizeof) - 1) (8 * Du.sizeof) x
        (to_unsigned_cast_FixDest Du S x)
    ∧ is_congruent_in_range 0 (2 ^ (8 * Ds.sizeof) - 1) (8 * Ds.sizeof) x
        (to_unsigned_cast_FixDest Ds S x)
    ∧ is_congruent_in_range (-(2 ^ (8 * Ds.sizeof - 1))) (2 ^ (8 * Ds.sizeof - 1) - 1)
        (8 * Ds.sizeof) x (narrow_cast_to Ds S x)
    ∧ is_congruent_in_range 0 (2 ^ (8 * Du.sizeof) - 1) (8 * Du.sizeof) x
        (narrow_cast_to Du U x)
    ∧ to_signed_cast U u = u - 2 ^ (8 * U.sizeof)
    ∧ to_unsigned_cast S s = s + 2 ^ (8 * S.sizeof)
    ∧ narrow_cast_to Du U x = x % 2 ^ (8 * Du.sizeof) := by
  have hsU := bits_split U hU
  have hpU := two_pow_pos_int (U.bits - 1)
  have hsS := bits_split S hS
  have hpS := two_pow_pos_int (S.bits - 1)
  simp only [IntType.bits] at hsU hpU hsS hpS
  refine ⟨is_congruent_in_range_signed (make_signed_t U) hU rfl x,
    is_congruent_in_range_signed Ds hDs hDss x,
    is_congruent_in_range_unsigned (make_unsigned_t S) hS rfl x,
    is_congruent_in_range_unsigned (make_unsigned_t Du) hDu rfl x,
    is_congruent_in_range_unsigned (make_unsigned_t Ds) hDs rfl x,
    is_congruent_in_range_signed Ds hDs hDss x,
    is_congruent_in_range_unsigned Du hDu hDuu x, ?_, ?_, ?_⟩
  · have hd : to_signed_cast U u
        = (u + 2 ^ (8 * U.sizeof - 1)) % 2 ^ (8 * U.sizeof) - 2 ^ (8 * U.sizeof - 1) := rfl
    rw [hd, hsU, Int.emod_eq_sub_self_emod, Int.emod_eq_of_lt (by omega) (by omega)]
    omega
  · have hd : to_unsigned_cast S s = s % 2 ^ (8 * S.sizeof) := rfl
    rw [hd, hsS, ← Int.add_mul_emod_self_left s _ 1, Int.emod_eq_of_lt (by omega) (by omega)]
    omega
  · unfold narrow_cast_to static_cast
    simp [hDuu, IntType.bits]

/-- Witness of C7: destinations `short` and `unsigned short`, sources
`unsigned int` and `int`, the values `x = -40000`, `u = 4294967295` and
`s = -1`, for which `to_signed_cast(u) = -1` and
`to_unsigned_cast(s) = 4294967295`. -/
theorem cast_variants_wrap_witness :
    is_congruent_in_range (-(2 ^ (8 * unsigned_int.sizeof - 1)))
        (2 ^ (8 * unsigned_int.sizeof - 1) - 1)
        (8 * unsigned_int.sizeof) (-40000) (to_signed_cast unsigned_int (-40000))
    ∧ is_congruent_in_range (-(2 ^ (8 * short.sizeof - 1))) (2 ^ (8 * short.sizeof - 1) - 1)
        (8 * short.sizeof) (-40000) (to_signed_cast_FixDest short unsigned_int (-40000))
    ∧ is_congruent_in_range 0 (2 ^ (8 * int.sizeof) - 1) (8 * int.sizeof) (-40000)
        (to_unsigned_cast int (-40000))
    ∧ is_congruent_in_range 0 (2 ^ (8 * unsigned_short.sizeof) - 1) (8 * unsigned_short.sizeof)
        (-40000) (to_unsigned_cast_FixDest unsigned_short int (-40000))
    ∧ is_congruent_in_range 0 (2 ^ (8 * short.sizeof) - 1) (8 * short.sizeof) (-40000)
        (to_unsigned_cast_FixDest short int (-40000))
    ∧ is_congruent_in_range (-(2 ^ (8 * short.sizeof - 1))) (2 ^ (8 * short.sizeof - 1) - 1)
        (8 * short.sizeof) (-40000) (narrow_cast_to short int (-40000))
    ∧ is_congruent_in_range 0 (2 ^ (8 * unsigned_short.sizeof) - 1) (8 * unsigned_short.sizeof)
        (-40000) (narrow_cast_to unsigned_short unsigned_int (-40000))
    ∧ to_signed_cast unsigned_int 4294967295 = 4294967295 - 2 ^ (8 * unsigned_int.sizeof)
    ∧ to_unsigned_cast int (-1) = -1 + 2 ^ (8 * int.sizeof)
    ∧ narrow_cast_to unsigned_short unsigned_int (-40000)
        = -40000 % 2 ^ (8 * unsigned_short.sizeof) :=
  cast_variants_wrap short unsigned_short unsigned_int int (-40000) 4294967295 (-1)
    (by decide) (by decide) (by decide) (by decide) rfl rfl rfl rfl
    (by decide) (by decide) (by decide) (by decide)

/-- C10. For integer types `Src` and `Dest` that the compile-time condition of
`promote_to` accepts and every value `x` of `Src`, `promote_to<Dest>(x)` is
`x`; the function has no throwing path in either build mode, and the range of
`Src` lies within the range of `Dest`. -/
theorem promote_to_lossless (Dest Src : IntType) (FixSrc : Option CType) (x : Int)
    (hS : 0 < Src.sizeof)
    (hen : promote_to_enabled (.integral Dest) FixSrc (.integral Src) = true)
    (hmin : Src.min ≤ x) (hmax : x ≤ Src.max) :
    promote_to Dest Src x = x ∧ Dest.min ≤ Src.min ∧ Src.max ≤ Dest.max := by
  simp only [promote_to_enabled, CType.sizeof, is_floating_point_v, is_integral_v, is_signed_v,
    is_unsigned_v, Bool.and_eq_true, Bool.or_eq_true, decide_eq_true_eq, Bool.false_and,
    Bool.true_and, Bool.false_eq_true, false_or, Bool.not_eq_true'] at hen
  obtain ⟨⟨_, hlt⟩, hk⟩ := hen
  have hD : 0 < Dest.sizeof := by omega
  have key : ∀ v, Src.min ≤ v ∧ v ≤ Src.max → (0 ≤ v ∨ Src.is_signed = true) →
      Dest.min ≤ v ∧ v ≤ Dest.max := by
    intro v hv h0
    refine in_range_of_wider Src Dest v hS hv ?_
    rcases hk with hk | ⟨hk1, hk2⟩
    · exact Or.inl ⟨hk.1, Or.inl hlt⟩
    · refine Or.inr ⟨hk1, by omega, ?_⟩
      rcases h0 with h0 | h0
      · exact h0
      · rw [hk2] at h0; cases h0
  have hp := two_pow_pos_int (Src.bits - 1)
  have hpb := two_pow_pos_int Src.bits
  have hsmin : Src.min ≤ Src.min ∧ Src.min ≤ Src.max := by
    unfold IntType.min IntType.max; split <;> omega
  have hsmax : Src.min ≤ Src.max ∧ Src.max ≤ Src.max := ⟨hsmin.2, le_refl _⟩
  have hsg : ∀ v, Src.min ≤ v → (0 ≤ v ∨ Src.is_signed = true) := by
    intro v hv
    cases hs : Src.is_signed
    · left; simpa [IntType.min, hs] using hv
    · right; rfl
  refine ⟨?_, (key _ hsmin (hsg _ hsmin.1)).1, (key _ hsmax (hsg _ hsmax.1)).2⟩
  exact (static_cast_eq_self_iff Dest hD x).2 (key x ⟨hmin, hmax⟩ (hsg x hmin))

/-- Witness of C10: `promote_to<int>` of the `unsigned short` value `65535`. -/
theorem promote_to_lossless_witness :
    promote_to int unsigned_short 65535 = 65535
    ∧ int.min ≤ unsigned_short.min ∧ unsigned_short.max ≤ int.max :=
  promote_to_lossless int unsigned_short none 65535 (by decide) (by decide) (by decide)
    (by decide)

/-! ### Conversion of an integer bound to a floating type -/

theorem dropped_bits_lower (p : Nat) (fuel a : Nat) (h : 0 < dropped_bits p fuel a) :
    2 ^ p ≤ a / 2 ^ (dropped_bits p fuel a - 1) := by
  induction fuel generalizing a with
  | zero => simp [dropped_bits] at h
  | succ fuel ih =>
    unfold dropped_bits at h ⊢
    by_cases ha : a < 2 ^ p
    · simp [ha] at h
    · simp only [ha, if_false] at h ⊢
      by_cases hd : 0 < dropped_bits p fuel (a / 2)
      · have := ih (a / 2) hd
        rw [Nat.div_div_eq_div_mul, ← pow_succ'] at this
        have e : dropped_bits p fuel (a / 2) - 1 + 1 = dropped_bits p fuel (a / 2) + 1 - 1 := by
          omega
        rw [e] at this
        exact this
      · have e : dropped_bits p fuel (a / 2) = 0 := by omega
        rw [e]
        simpa using ha

/-- The rounded magnitude of `a`, as `int_to_floating` computes it. -/
theorem int_to_floating_natAbs (F : FloatType) (n : Int) :
    int_to_floating F n = n.sign *
      (((if 2 ^ dropped_bits F.digits n.natAbs n.natAbs
              < 2 * (n.natAbs % 2 ^ dropped_bits F.digits n.natAbs n.natAbs)
            ∨ (2 ^ dropped_bits F.digits n.natAbs n.natAbs
                = 2 * (n.natAbs % 2 ^ dropped_bits F.digits n.natAbs n.natAbs)
              ∧ n.natAbs / 2 ^ dropped_bits F.digits n.natAbs n.natAbs % 2 = 1)
          then n.natAbs / 2 ^ dropped_bits F.digits n.natAbs n.natAbs + 1
          else n.natAbs / 2 ^ dropped_bits F.digits n.natAbs n.natAbs)
        * 2 ^ dropped_bits F.digits n.natAbs n.natAbs : Nat) : Int) := rfl

theorem dropped_bits_le (p k fuel a : Nat) (hp : 0 < p) (ha : a ≤ 2 ^ k) :
    dropped_bits p fuel a ≤ k := by
  by_contra hn
  have hpos : 0 < dropped_bits p fuel a := by omega
  have h1 := dropped_bits_lower p fuel a hpos
  have h2 : (2 : Nat) ^ k ≤ 2 ^ (dropped_bits p fuel a - 1) :=
    Nat.pow_le_pow_right (by norm_num) (by omega)
  have h3 : a / 2 ^ (dropped_bits p fuel a - 1) ≤ 1 := by
    have hpos2 : 0 < 2 ^ (dropped_bits p fuel a - 1) := by positivity
    rw [Nat.div_le_iff_le_mul_add_pred hpos2]
    omega
  have h4 : 2 ≤ 2 ^ p := by
    calc 2 = 2 ^ 1 := by norm_num
      _ ≤ 2 ^ p := Nat.pow_le_pow_right (by norm_num) hp
  omega

theorem int_to_floating_zero (F : FloatType) : int_to_floating F 0 = 0 := by
  rw [int_to_floating_natAbs]
  simp

/-- An integer that fits the significand is converted exactly. -/
theorem int_to_floating_exact (F : FloatType) (n : Int) (h : n.natAbs < 2 ^ F.digits) :
    int_to_floating F n = n := by
  have hd : dropped_bits F.digits n.natAbs n.natAbs = 0 := by
    cases hn : n.natAbs with
    | zero => rfl
    | succ a =>
      rw [hn] at h
      unfold dropped_bits
      rw [if_pos h]
  rw [int_to_floating_natAbs, hd]
  have hno : ¬ (2 ^ 0 < 2 * (n.natAbs % 2 ^ 0)
      ∨ (2 ^ 0 = 2 * (n.natAbs % 2 ^ 0) ∧ n.natAbs / 2 ^ 0 % 2 = 1)) := by
    simp [Nat.mod_one]
  rw [if_neg hno, pow_zero, Nat.div_one, Nat.mul_one]
  exact Int.sign_mul_natAbs n

/-- A bound `2 ^ k - 1` is never rounded down. -/
theorem int_to_floating_pow_sub_one (F : FloatType) (hF : 0 < F.digits) (k : Nat) :
    (2 : Int) ^ k - 1 ≤ int_to_floating F (2 ^ k - 1) := by
  rcases Nat.eq_zero_or_pos k with hk | hk
  · subst hk
    have e : (2 : Int) ^ 0 - 1 = 0 := by norm_num
    rw [e, int_to_floating_zero]
  have hone : 1 ≤ 2 ^ k := Nat.one_le_two_pow
  have hk2 : 2 ≤ 2 ^ k := by
    calc 2 = 2 ^ 1 := by norm_num
      _ ≤ 2 ^ k := Nat.pow_le_pow_right (by norm_num) hk
  have hn : ((2 : Int) ^ k - 1) = ((2 ^ k - 1 : Nat) : Int) := by
    push_cast [Nat.cast_sub hone]; ring
  rw [int_to_floating_natAbs, hn, Int.natAbs_ofNat]
  have hsign : Int.sign ((2 ^ k - 1 : Nat) : Int) = 1 := by
    apply Int.sign_eq_one_of_pos
    omega
  rw [hsign, one_mul]
  norm_cast
  generalize hs : dropped_bits F.digits (2 ^ k - 1) (2 ^ k - 1) = s
  have hsk : s ≤ k := by
    rw [← hs]
    exact dropped_bits_le F.digits k _ _ hF (by omega)
  have hlow := dropped_bits_lower F.digits (2 ^ k - 1) (2 ^ k - 1)
  rw [hs] at hlow
  have hps : 0 < 2 ^ s := by positivity
  -- the discarded part of `2 ^ k - 1` is all ones
  obtain ⟨q, hq⟩ : ∃ q, 2 ^ (k - s) = q + 1 :=
    ⟨2 ^ (k - s) - 1, by have : 1 ≤ 2 ^ (k - s) := Nat.one_le_two_pow; omega⟩
  have hsplit : 2 ^ k - 1 = (2 ^ s - 1) + 2 ^ s * q := by
    have : 2 ^ k = 2 ^ s * 2 ^ (k - s) := by
      rw [← pow_add]; congr 1; omega
    rw [this, hq, Nat.mul_succ]
    omega
  have hr : (2 ^ k - 1) % 2 ^ s = 2 ^ s - 1 := by
    rw [hsplit, Nat.add_mul_mod_self_left, Nat.mod_eq_of_lt (by omega)]
  have hdm := Nat.div_add_mod (2 ^ k - 1) (2 ^ s)
  rw [hr] at hdm ⊢
  set m := (2 ^ k - 1) / 2 ^ s with hm
  split_ifs with hup
  · rw [Nat.add_mul]; rw [Nat.mul_comm] at hdm; omega
  · -- no rounding up: then nothing was discarded
    have hs0 : s = 0 := by
      by_contra hne
      apply hup
      rcases Nat.lt_or_ge s 2 with h2 | h2
      · have hs1 : s = 1 := by omega
        subst hs1
        right
        have hF2 : 2 ≤ 2 ^ F.digits := by
          calc 2 = 2 ^ 1 := by norm_num
            _ ≤ 2 ^ F.digits := Nat.pow_le_pow_right (by norm_num) hF
        have hl := hlow (by norm_num)
        simp only [Nat.sub_self, pow_zero, Nat.div_one] at hl
        have hk' : 2 ≤ k := by
          by_contra hk'
          have : k = 1 := by omega
          subst this
          norm_num at hl
          omega
        obtain ⟨c, hc⟩ : ∃ c, 2 ^ k = 4 * (c + 1) := by
          refine ⟨2 ^ (k - 2) - 1, ?_⟩
          have : 1 ≤ 2 ^ (k - 2) := Nat.one_le_two_pow
          have e : 2 ^ k = 2 ^ 2 * 2 ^ (k - 2) := by
            rw [← pow_add]; congr 1; omega
          rw [e]
          omega
        constructor
        · norm_num
        · rw [hm, hc]
          norm_num
          omega
      · left
        obtain ⟨c, hc⟩ : ∃ c, 2 ^ s = 4 * (c + 1) := by
          refine ⟨2 ^ (s - 2) - 1, ?_⟩
          have : 1 ≤ 2 ^ (s - 2) := Nat.one_le_two_pow
          have e : 2 ^ s = 2 ^ 2 * 2 ^ (s - 2) := by
            rw [← pow_add]; congr 1; omega
          rw [e]
          omega
        omega
    subst hs0
    simp [hm]

/-- A bound `-2 ^ k` is converted exactly. -/
theorem int_to_floating_neg_pow (F : FloatType) (hF : 0 < F.digits) (k : Nat) :
    int_to_floating F (-(2 : Int) ^ k) = -(2 : Int) ^ k := by
  have hn : (-(2 : Int) ^ k).natAbs = 2 ^ k := by
    rw [Int.natAbs_neg]
    exact Int.natAbs_pow 2 k
  have hsign : Int.sign (-(2 : Int) ^ k) = -1 := by
    apply Int.sign_eq_neg_one_of_neg
    have := two_pow_pos_int k
    omega
  rw [int_to_floating_natAbs, hn, hsign]
  generalize hs : dropped_bits F.digits (2 ^ k) (2 ^ k) = s
  have hsk : s ≤ k := by
    rw [← hs]
    exact dropped_bits_le F.digits k _ _ hF (le_refl _)
  have hdvd : 2 ^ s ∣ 2 ^ k := pow_dvd_pow 2 hsk
  have hr : 2 ^ k % 2 ^ s = 0 := Nat.mod_eq_zero_of_dvd hdvd
  have hps : 0 < 2 ^ s := by positivity
  rw [hr]
  have hno : ¬ (2 ^ s < 2 * 0 ∨ (2 ^ s = 2 * 0 ∧ 2 ^ k / 2 ^ s % 2 = 1)) := by
    omega
  rw [if_neg hno, Nat.div_mul_cancel hdvd]
  push_cast
  ring

/-- The upper bound of an integer type does not shrink when converted to a
floating type. -/
theorem int_to_floating_max (F : FloatType) (hF : 0 < F.digits) (T : IntType) :
    T.max ≤ int_to_floating F T.max := by
  unfold IntType.max
  split
  · exact int_to_floating_pow_sub_one F hF _
  · exact int_to_floating_pow_sub_one F hF _

/-- The lower bound of an integer type is converted exactly to a floating
type. -/
theorem int_to_floating_min (F : FloatType) (hF : 0 < F.digits) (T : IntType) :
    int_to_floating F T.min = T.min := by
  unfold IntType.min
  split
  · exact int_to_floating_neg_pow F hF _
  · exact int_to_floating_zero F

/-! ### Rounding of a floating-point sum -/

/-- Rounding of a quotient written in lowest terms. -/
theorem round_to_digits_div (p : Nat) (n : Int) (d : Nat) (hd : 0 < d)
    (hc : Nat.Coprime n.natAbs d) :
    round_to_digits p ((n : ℚ) / (d : ℚ)) =
      ((round_ratio p n d).1 : ℚ) * (2 : ℚ) ^ (round_ratio p n d).2 := by
  have h1 : ((n : ℚ) / (d : ℚ)).num = n := by
    have := Rat.num_div_eq_of_coprime (a := n) (b := (d : Int)) (by exact_mod_cast hd)
      (by simpa using hc)
    simpa using this
  have h2 : ((n : ℚ) / (d : ℚ)).den = d := by
    have := Rat.den_div_eq_of_coprime (a := n) (b := (d : Int)) (by exact_mod_cast hd)
      (by simpa using hc)
    exact_mod_cast this
  unfold round_to_digits
  rw [h1, h2]

/-- In `double`, `2 ^ 63 + 0.5` is `2 ^ 63`. -/
theorem floating_add_double_two_pow_63 :
    floating_add double 9223372036854775808 (1 / 2) = 9223372036854775808 := by
  have hp : max double.digits double.digits = 53 := by decide
  have e : (9223372036854775808 : ℚ) + 1 / 2
      = ((18446744073709551617 : Int) : ℚ) / ((2 : Nat) : ℚ) := by norm_num
  have r : round_ratio 53 18446744073709551617 2 = (4503599627370496, 11) := by decide
  rw [floating_add, hp, e, round_to_digits_div 53 _ _ (by decide) (by norm_num), r]
  norm_num

/-- A `float` is widened to `double` for the sum: `2 ^ 31 + 0.5` is exact. -/
theorem floating_add_float_two_pow_31 :
    floating_add float 2147483648 (1 / 2) = 2147483648 + 1 / 2 := by
  have hp : max float.digits double.digits = 53 := by decide
  have e : (2147483648 : ℚ) + 1 / 2
      = ((4294967297 : Int) : ℚ) / ((2 : Nat) : ℚ) := by norm_num
  have r : round_ratio 53 4294967297 2 = (4503599628419072, -21) := by decide
  rw [floating_add, hp, e, round_to_digits_div 53 _ _ (by decide) (by norm_num), r]
  norm_num

/-- In `double`, the sum of `0.49999999999999994`, the largest `double` below
`0.5`, and `0.5` is `1`. -/
theorem floating_add_double_below_half :
    floating_add double (9007199254740991 / 18014398509481984) (1 / 2) = 1 := by
  have hp : max double.digits double.digits = 53 := by decide
  have e : (9007199254740991 / 18014398509481984 : ℚ) + 1 / 2
      = ((18014398509481983 : Int) : ℚ) / ((18014398509481984 : Nat) : ℚ) := by norm_num
  have r : round_ratio 53 18014398509481983 18014398509481984
      = (9007199254740992, -53) := by decide
  rw [floating_add, hp, e, round_to_digits_div 53 _ _ (by decide) (by norm_num), r]
  norm_num

/-- A value within the bounds of `Dest` passes the range test of `truncate_to`
and `round_to`. -/
theorem range_test_passes (Dest : IntType) (Src : FloatType) (hF : 0 < Src.digits) (x : ℚ)
    (hmin : (Dest.min : ℚ) ≤ x) (hmax : x ≤ (Dest.max : ℚ)) :
    ¬ ((int_to_floating Src Dest.max : ℚ) < x ∨ (int_to_floating Src Dest.min : ℚ) > x) := by
  have h1 : (Dest.max : ℚ) ≤ (int_to_floating Src Dest.max : ℚ) := by
    exact_mod_cast int_to_floating_max Src hF Dest
  rw [int_to_floating_min Src hF Dest]
  rintro (h | h)
  · linarith
  · linarith

/-- C8. At the `double` value `9223372036854775808 = 2 ^ 63`, which exceeds
`max(long long) = 2 ^ 63 - 1`, `truncate_to<long long>` and
`round_to<long long>` in checked mode do not throw: the bound, converted to
`double` for the comparison, is `2 ^ 63` itself.  The conversion that follows
has no defined result.  The same happens for `float` and `int` at `2 ^ 31`. -/
theorem truncate_to_round_to_miss_upper_bound :
    (long_long.max : ℚ) < 9223372036854775808
    ∧ int_to_floating double 9223372036854775808 = 9223372036854775808
    ∧ int_to_floating double long_long.max = 9223372036854775808
    ∧ truncate_to 1 long_long double 9223372036854775808 = .undefined
    ∧ round_to 1 long_long double 9223372036854775808 = .undefined
    ∧ (int.max : ℚ) < 2147483648
    ∧ int_to_floating float 2147483648 = 2147483648
    ∧ truncate_to 1 int float 2147483648 = .undefined
    ∧ round_to 1 int float 2147483648 = .undefined := by
  have h1 : int_to_floating double long_long.max = 9223372036854775808 := by decide
  have h2 : int_to_floating double long_long.min = -9223372036854775808 := by decide
  have h3 : int_to_floating float int.max = 2147483648 := by decide
  have h4 : int_to_floating float int.min = -2147483648 := by decide
  have hb1 : ¬ (long_long.is_signed = true ∧ (9223372036854775808 : ℚ) < 0) := by norm_num
  have hb2 : ¬ (int.is_signed = true ∧ (2147483648 : ℚ) < 0) := by norm_num
  refine ⟨?_, by decide, h1, ?_, ?_, ?_, by decide, ?_, ?_⟩
  · norm_num [IntType.max, long_long, IntType.bits]
  · simp only [truncate_to, h1, h2]
    norm_num [floating_to_integral, trunc, IntType.min, IntType.max, long_long, IntType.bits]
  · simp only [round_to, h1, h2, if_neg hb1, floating_add_double_two_pow_63]
    norm_num [floating_to_integral, trunc, IntType.min, IntType.max, long_long, IntType.bits]
  · norm_num [IntType.max, int, IntType.bits]
  · simp only [truncate_to, h3, h4]
    norm_num [floating_to_integral, trunc, IntType.min, IntType.max, int, IntType.bits]
  · simp only [round_to, h3, h4, if_neg hb2, floating_add_float_two_pow_31]
    norm_num [floating_to_integral, trunc, IntType.min, IntType.max, int, IntType.bits,
      Int.floor_eq_iff]

theorem intType_max_nonneg (T : IntType) : 0 ≤ T.max := by
  have h1 := two_pow_pos_int (T.bits - 1)
  have h2 := two_pow_pos_int T.bits
  unfold IntType.max
  split <;> omega

theorem intType_min_nonpos (T : IntType) : T.min ≤ 0 := by
  have h1 := two_pow_pos_int (T.bits - 1)
  unfold IntType.min
  split <;> omega

/-- Counterexample to C9: in checked mode `round_to<int>` of the `double`
`0.49999999999999994`, a value within the bounds of `int`, returns `1`, since
the sum with `0.5` rounds to `1.0`; the nearest integer, and `trunc(x + 1/2)`,
is `0`.  Likewise `round_to<long long>` of the `double` `4503599627370497`
returns `4503599627370498`, and `round_to<bool>`, which the compile-time
condition accepts, returns `1` (`true`) for `0.25`. -/
theorem round_to_not_nearest :
    (int.min : ℚ) ≤ 9007199254740991 / 18014398509481984
    ∧ (9007199254740991 / 18014398509481984 : ℚ) ≤ int.max
    ∧ round_to 1 int double (9007199254740991 / 18014398509481984) = .returns 1
    ∧ trunc (9007199254740991 / 18014398509481984 + 1 / 2) = 0
    ∧ ¬ is_nearest_away_from_zero (9007199254740991 / 18014398509481984) 1
    ∧ round_to 1 long_long double 4503599627370497 = .returns 4503599627370498
    ∧ trunc (4503599627370497 + 1 / 2) = 4503599627370497
    ∧ truncate_to_enabled .bool none (.floating_point double) = true
    ∧ round_to_bool 1 double (1 / 4) = .returns 1
    ∧ trunc (1 / 4 + 1 / 2) = 0 := by
  have h3 : int_to_floating double int.max = 2147483647 := by decide
  have h4 : int_to_floating double int.min = -2147483648 := by decide
  have h1 : int_to_floating double long_long.max = 9223372036854775808 := by decide
  have h2 : int_to_floating double long_long.min = -9223372036854775808 := by decide
  have h5 : int_to_floating double 1 = 1 := by decide
  have h6 : int_to_floating double 0 = 0 := by decide
  have hp : max double.digits double.digits = 53 := by decide
  have hb1 : ¬ (int.is_signed = true ∧ (9007199254740991 / 18014398509481984 : ℚ) < 0) := by
    norm_num
  have hb2 : ¬ (long_long.is_signed = true ∧ (4503599627370497 : ℚ) < 0) := by norm_num
  have s2 : floating_add double 4503599627370497 (1 / 2) = 4503599627370498 := by
    have e : (4503599627370497 : ℚ) + 1 / 2
        = ((9007199254740995 : Int) : ℚ) / ((2 : Nat) : ℚ) := by norm_num
    have r : round_ratio 53 9007199254740995 2 = (4503599627370498, 0) := by decide
    rw [floating_add, hp, e, round_to_digits_div 53 _ _ (by decide) (by norm_num), r]
    norm_num
  have s3 : floating_add double (1 / 4) (1 / 2) = 3 / 4 := by
    have e : (1 / 4 : ℚ) + 1 / 2 = ((3 : Int) : ℚ) / ((4 : Nat) : ℚ) := by norm_num
    have r : round_ratio 53 3 4 = (6755399441055744, -53) := by decide
    rw [floating_add, hp, e, round_to_digits_div 53 _ _ (by decide) (by norm_num), r]
    norm_num
  refine ⟨?_, ?_, ?_, ?_, ?_, ?_, ?_, by decide, ?_, ?_⟩
  · norm_num [IntType.min, int, IntType.bits]
  · norm_num [IntType.max, int, IntType.bits]
  · simp only [round_to, h3, h4, if_neg hb1, floating_add_double_below_half]
    norm_num [floating_to_integral, trunc, IntType.min, IntType.max, int, IntType.bits]
  · norm_num [trunc, Int.floor_eq_iff]
  · intro h
    have h' := h.1
    rw [abs_le] at h'
    norm_num at h'
  · simp only [round_to, h1, h2, if_neg hb2, s2]
    norm_num [floating_to_integral, trunc, IntType.min, IntType.max, long_long, IntType.bits]
  · norm_num [trunc, Int.floor_eq_iff]
  · simp only [round_to_bool, h5, h6, s3]
    norm_num [floating_to_bool]
  · norm_num [trunc, Int.floor_eq_iff]

/-- C9, amended. For an integer type `Dest` other than `bool`, a floating source
type and a value `x` with `min(Dest) ≤ x ≤ max(Dest)` for which the rounding of
the floating-point sum `x + 0.5` (for `x ≥ 0`) or difference `x - 0.5` (for
`x < 0`) does not change its integer part, as when the sum is exact: in either
build mode `round_to<Dest>(x)` returns `trunc(x + 1/2)` when `x ≥ 0` and
`trunc(x - 1/2)` when `x < 0`, and that integer is the one nearest to `x`, a
tie going away from zero. -/
theorem round_to_nearest_away_from_zero (checking : Nat) (Dest : IntType) (Src : FloatType)
    (x : ℚ) (hF : 0 < Src.digits)
    (hmin : (Dest.min : ℚ) ≤ x) (hmax : x ≤ (Dest.max : ℚ))
    (hadd : 0 ≤ x → trunc (floating_add Src x (1 / 2)) = trunc (x + 1 / 2))
    (hsub : x < 0 → trunc (floating_sub Src x (1 / 2)) = trunc (x - 1 / 2)) :
    round_to checking Dest Src x
      = .returns (if 0 ≤ x then trunc (x + 1 / 2) else trunc (x - 1 / 2))
    ∧ is_nearest_away_from_zero x (if 0 ≤ x then trunc (x + 1 / 2) else trunc (x - 1 / 2)) := by
  have hpass := range_test_passes Dest Src hF x hmin hmax
  have hmaxn : (0 : ℚ) ≤ (Dest.max : ℚ) := by exact_mod_cast intType_max_nonneg Dest
  have hminn : (Dest.min : ℚ) ≤ 0 := by exact_mod_cast intType_min_nonpos Dest
  unfold round_to
  rw [if_neg (fun h => hpass h.2)]
  by_cases hx : 0 ≤ x
  · have hadj : (if Dest.is_signed = true ∧ x < 0 then floating_sub Src x (1 / 2)
        else floating_add Src x (1 / 2)) = floating_add Src x (1 / 2) :=
      if_neg (fun h => absurd h.2 (not_lt.2 hx))
    have ht : trunc (x + 1 / 2) = ⌊x + 1 / 2⌋ := by
      unfold trunc
      rw [if_pos (by linarith)]
    have hf1 : (⌊x + 1 / 2⌋ : ℚ) ≤ x + 1 / 2 := Int.floor_le _
    have hf2 : x + 1 / 2 < (⌊x + 1 / 2⌋ : ℚ) + 1 := Int.lt_floor_add_one _
    have hf0 : (0 : Int) ≤ ⌊x + 1 / 2⌋ := Int.floor_nonneg.2 (by linarith)
    have hf0q : (0 : ℚ) ≤ (⌊x + 1 / 2⌋ : ℚ) := by exact_mod_cast hf0
    rw [hadj, if_pos hx, ht]
    constructor
    · unfold floating_to_integral
      rw [hadd hx, ht, if_pos]
      constructor
      · have := intType_min_nonpos Dest
        omega
      · have : (⌊x + 1 / 2⌋ : ℚ) < (Dest.max : ℚ) + 1 := by linarith
        have : ⌊x + 1 / 2⌋ < Dest.max + 1 := by exact_mod_cast this
        omega
    · constructor
      · rw [abs_le]; constructor <;> linarith
      · intro he
        rw [abs_of_nonneg hx, abs_of_nonneg hf0q]
        rcases abs_eq (by norm_num : (0 : ℚ) ≤ 1 / 2) |>.1 he with h | h <;> linarith
  · have hx' : x < 0 := not_le.1 hx
    have hsg : Dest.is_signed = true := by
      by_contra hns
      have : Dest.min = 0 := by
        unfold IntType.min
        rw [if_neg hns]
      rw [this] at hmin
      norm_num at hmin
      linarith
    have hadj : (if Dest.is_signed = true ∧ x < 0 then floating_sub Src x (1 / 2)
        else floating_add Src x (1 / 2)) = floating_sub Src x (1 / 2) :=
      if_pos ⟨hsg, hx'⟩
    have ht : trunc (x - 1 / 2) = ⌈x - 1 / 2⌉ := by
      unfold trunc
      rw [if_neg (by linarith)]
    have hc1 : x - 1 / 2 ≤ (⌈x - 1 / 2⌉ : ℚ) := Int.le_ceil _
    have hc2 : (⌈x - 1 / 2⌉ : ℚ) < x - 1 / 2 + 1 := Int.ceil_lt_add_one _
    have hc0 : ⌈x - 1 / 2⌉ ≤ (0 : Int) := Int.ceil_le.2 (by push_cast; linarith)
    have hc0q : (⌈x - 1 / 2⌉ : ℚ) ≤ 0 := by exact_mod_cast hc0
    rw [hadj, if_neg hx, ht]
    constructor
    · unfold floating_to_integral
      rw [hsub hx', ht, if_pos]
      constructor
      · have : (Dest.min : ℚ) - 1 < (⌈x - 1 / 2⌉ : ℚ) := by linarith
        have : Dest.min - 1 < ⌈x - 1 / 2⌉ := by exact_mod_cast this
        omega
      · have := intType_max_nonneg Dest
        omega
    · constructor
      · rw [abs_le]; constructor <;> linarith
      · intro he
        rw [abs_of_neg hx', abs_of_nonpos hc0q]
        rcases abs_eq (by norm_num : (0 : ℚ) ≤ 1 / 2) |>.1 he with h | h <;> linarith

/-- The sums of the rounding policy at `2.5`, `-2.5` and at the `double` values
nearest to `2.4` and `-2.4` are computed exactly in `double`. -/
theorem floating_sums_of_rounding_policy :
    floating_add double (5 / 2) (1 / 2) = 5 / 2 + 1 / 2
    ∧ floating_sub double (-5 / 2) (1 / 2) = -5 / 2 - 1 / 2
    ∧ floating_add double (5404319552844595 / 2251799813685248) (1 / 2)
        = 5404319552844595 / 2251799813685248 + 1 / 2
    ∧ floating_sub double (-5404319552844595 / 2251799813685248) (1 / 2)
        = -5404319552844595 / 2251799813685248 - 1 / 2 := by
  have hp : max double.digits double.digits = 53 := by decide
  refine ⟨?_, ?_, ?_, ?_⟩
  · have e : (5 / 2 : ℚ) + 1 / 2 = ((3 : Int) : ℚ) / ((1 : Nat) : ℚ) := by norm_num
    have r : round_ratio 53 3 1 = (6755399441055744, -51) := by decide
    rw [floating_add, hp]
    conv_lhs => rw [e, round_to_digits_div 53 _ _ (by decide) (by norm_num), r]
    norm_num
  · have e : (-5 / 2 : ℚ) - 1 / 2 = ((-3 : Int) : ℚ) / ((1 : Nat) : ℚ) := by norm_num
    have r : round_ratio 53 (-3) 1 = (-6755399441055744, -51) := by decide
    rw [floating_sub, hp]
    conv_lhs => rw [e, round_to_digits_div 53 _ _ (by decide) (by norm_num), r]
    norm_num
  · have e : (5404319552844595 / 2251799813685248 : ℚ) + 1 / 2
        = ((6530219459687219 : Int) : ℚ) / ((2251799813685248 : Nat) : ℚ) := by norm_num
    have r : round_ratio 53 6530219459687219 2251799813685248
        = (6530219459687219, -51) := by decide
    rw [floating_add, hp]
    conv_lhs => rw [e, round_to_digits_div 53 _ _ (by decide) (by norm_num), r]
    norm_num
  · have e : (-5404319552844595 / 2251799813685248 : ℚ) - 1 / 2
        = ((-6530219459687219 : Int) : ℚ) / ((2251799813685248 : Nat) : ℚ) := by norm_num
    have r : round_ratio 53 (-6530219459687219) 2251799813685248
        = (-6530219459687219, -51) := by decide
    rw [floating_sub, hp]
    conv_lhs => rw [e, round_to_digits_div 53 _ _ (by decide) (by norm_num), r]
    norm_num

/-- Witness of C9: the rounding policy at `2.5`, `-2.5`, `2.4` and `-2.4`
(the last two as the `double` values nearest to them), rounded to `int` in
checked mode; each sum is exact in `double`. -/
theorem round_to_nearest_away_from_zero_witness :
    round_to 1 int double (5 / 2) = .returns 3
    ∧ round_to 1 int double (-5 / 2) = .returns (-3)
    ∧ round_to 1 int double (5404319552844595 / 2251799813685248) = .returns 2
    ∧ round_to 1 int double (-5404319552844595 / 2251799813685248) = .returns (-2) := by
  obtain ⟨s1, s2, s3, s4⟩ := floating_sums_of_rounding_policy
  have h1 := (round_to_nearest_away_from_zero 1 int double (5 / 2) (by decide)
    (by norm_num [IntType.min, int, IntType.bits])
    (by norm_num [IntType.max, int, IntType.bits])
    (fun _ => congrArg trunc s1) (fun h => absurd h (by norm_num))).1
  have h2 := (round_to_nearest_away_from_zero 1 int double (-5 / 2) (by decide)
    (by norm_num [IntType.min, int, IntType.bits])
    (by norm_num [IntType.max, int, IntType.bits])
    (fun h => absurd h (by norm_num)) (fun _ => congrArg trunc s2)).1
  have h3 := (round_to_nearest_away_from_zero 1 int double
    (5404319552844595 / 2251799813685248) (by decide)
    (by norm_num [IntType.min, int, IntType.bits])
    (by norm_num [IntType.max, int, IntType.bits])
    (fun _ => congrArg trunc s3) (fun h => absurd h (by norm_num))).1
  have h4 := (round_to_nearest_away_from_zero 1 int double
    (-5404319552844595 / 2251799813685248) (by decide)
    (by norm_num [IntType.min, int, IntType.bits])
    (by norm_num [IntType.max, int, IntType.bits])
    (fun h => absurd h (by norm_num)) (fun _ => congrArg trunc s4)).1
  refine ⟨?_, ?_, ?_, ?_⟩
  · rw [h1]; norm_num [trunc]
  · rw [h2]; norm_num [trunc, Int.ceil_eq_iff]
  · rw [h3]; norm_num [trunc, Int.floor_eq_iff]
  · rw [h4]; norm_num [trunc, Int.ceil_eq_iff]

/-! ### The guarded wrapper and the remaining compile-time conditions -/

/-- C11. For integer types `Dest` and `Src` that the constructor of
`promote_here<Dest>` accepts and a value `x` of `Src`, the stored value read
back through `operator Dest()` and through `operator()()` is `x` in both
cases; the two accessors agree on every wrapper, whatever its value type. -/
theorem promote_here_reads_back (Dest Src : IntType) (FixSrc : Option CType) (x : Int)
    (hS : 0 < Src.sizeof)
    (hen : promote_here_enabled (.integral Dest) FixSrc (.integral Src) = true)
    (hmin : Src.min ≤ x) (hmax : x ≤ Src.max) :
    (promote_here.construct Dest Src x).operator_Dest = x
    ∧ (promote_here.construct Dest Src x).operator_call = x
    ∧ ∀ (V : Type) (w : promote_here V), w.operator_Dest = w.operator_call := by
  have hval : static_cast Dest x = x := by
    by_cases hsame : Dest = Src
    · subst hsame
      exact (static_cast_eq_self_iff Dest hS x).2 ⟨hmin, hmax⟩
    · have hne : (CType.integral Dest == CType.integral Src) = false := by
        simpa using hsame
      simp only [promote_here_enabled, hne, CType.sizeof, is_floating_point_v, is_integral_v,
        is_signed_v, is_unsigned_v, Bool.and_eq_true, Bool.or_eq_true, decide_eq_true_eq,
        Bool.false_and, Bool.true_and, Bool.false_eq_true, false_or, or_false,
        Bool.not_eq_true', Bool.and_true] at hen
      obtain ⟨⟨_, hlt⟩, hk⟩ := hen
      have hD : 0 < Dest.sizeof := by omega
      rw [static_cast_eq_self_iff Dest hD x]
      refine in_range_of_wider Src Dest x hS ⟨hmin, hmax⟩ ?_
      rcases hk with hk | ⟨hk1, hk2⟩
      · exact Or.inl ⟨hk, Or.inl hlt⟩
      · refine Or.inr ⟨hk1, by omega, ?_⟩
        simpa [IntType.min, hk2] using hmin
  exact ⟨hval, hval, fun _ _ => rfl⟩

/-- Witness of C11: `promote_here<long long>` built from the `int` value
`-5`. -/
theorem promote_here_reads_back_witness :
    (promote_here.construct long_long int (-5)).operator_Dest = -5
    ∧ (promote_here.construct long_long int (-5)).operator_call = -5
    ∧ ∀ (V : Type) (w : promote_here V), w.operator_Dest = w.operator_call :=
  promote_here_reads_back long_long int none (-5) (by decide) (by decide) (by decide)
    (by decide)

theorem static_cast_idem (T : IntType) (hT : 0 < T.sizeof) (x : Int) :
    static_cast T (static_cast T x) = static_cast T x :=
  (static_cast_eq_self_iff T hT _).2 (static_cast_range T hT x)

theorem make_unsigned_t_of_unsigned (T : IntType) (h : T.is_signed = false) :
    make_unsigned_t T = T := by
  obtain ⟨s, n⟩ := T
  simp only at h
  subst h
  rfl

/-- With the checks compiled out, every checked function returns what its
`_cast` form returns, the explicit-destination `to_unsigned` as long as its
destination is unsigned. -/
theorem unchecked_forms_agree (Dest Src : IntType) (x : Int) :
    to_signed 0 Src x = .returns (to_signed_cast Src x)
    ∧ to_signed_FixDest 0 Dest Src x = .returns (to_signed_cast_FixDest Dest Src x)
    ∧ to_unsigned 0 Src x = .returns (to_unsigned_cast Src x)
    ∧ narrow_to 0 Dest Src x = .returns (narrow_cast_to Dest Src x)
    ∧ (Dest.is_signed = false → 0 < Dest.sizeof →
        to_unsigned_FixDest 0 Dest Src x = .returns (to_unsigned_cast_FixDest Dest Src x)) := by
  refine ⟨by simp [to_signed, to_signed_cast], by simp [to_signed_FixDest, to_signed_cast_FixDest],
    by simp [to_unsigned, to_unsigned_cast], by simp [narrow_to, narrow_cast_to], ?_⟩
  intro hu hD
  simp [to_unsigned_FixDest, to_unsigned_cast_FixDest, make_unsigned_t_of_unsigned Dest hu,
    static_cast_idem Dest hD]

/-- C12. With the checks compiled out, `to_unsigned<int>(-1)`, which the
compile-time condition accepts, returns `-1`, the value of its local
`FixDest tus`, while `to_unsigned_cast<int>(-1)` returns `4294967295`: the two
do not return the same value. -/
theorem to_unsigned_FixDest_unchecked_differs_from_cast :
    to_unsigned_FixDest_enabled (.integral int) none (.integral int) = true
    ∧ to_unsigned_FixDest 0 int int (-1) = .returns (-1)
    ∧ to_unsigned_cast_FixDest int int (-1) = 4294967295
    ∧ to_unsigned_FixDest 1 int int (-1) = .returns (-1) := by
  decide

/-- C13. The condition of `narrow_cast_to` has no test of signedness: it
accepts `narrow_cast_to<unsigned char>` of an `int`, which the condition of
`narrow_to` rejects, and the call turns `-1` into `255`. -/
theorem narrow_cast_to_accepts_mixed_signedness :
    narrow_cast_to_enabled (.integral unsigned_char) none (.integral int) = true
    ∧ narrow_to_enabled (.integral unsigned_char) none (.integral int) = false
    ∧ is_signed_v (.integral unsigned_char) ≠ is_signed_v (.integral int)
    ∧ narrow_cast_to unsigned_char int (-1) = 255 := by
  decide

/-- Counterexample to C14: `promote_to<int>` accepts an `unsigned short`
source, a pair of integral types of different signedness. -/
theorem promote_to_accepts_unsigned_to_signed :
    ¬ ∀ Dest Src : IntType,
        promote_to_enabled (.integral Dest) none (.integral Src) = true →
          Dest.is_signed = Src.is_signed := by
  intro h
  have := h int unsigned_short (by decide)
  exact absurd this (by decide)

/-- C14, amended. The condition of `promote_to` accepts a pair of integral
types exactly when the destination is strictly larger and either the
destination is signed (the source being of either signedness) or the source
is unsigned too; a signed source is never accepted for an unsigned
destination. -/
theorem promote_to_accepts_integral_iff (Dest Src : IntType) (FixSrc : Option CType) :
    (promote_to_enabled (.integral Dest) FixSrc (.integral Src) = true ↔
      FixSrc_matches FixSrc (.integral Src) = true ∧ Src.sizeof < Dest.sizeof
        ∧ (Dest.is_signed = true ∨ Src.is_signed = false))
    ∧ (Src.is_signed = true → Dest.is_signed = false →
        promote_to_enabled (.integral Dest) FixSrc (.integral Src) = false) := by
  obtain ⟨sd, nd⟩ := Dest
  obtain ⟨ss, ns⟩ := Src
  cases sd <;> cases ss <;>
    simp [promote_to_enabled, CType.sizeof, is_floating_point_v, is_integral_v, is_signed_v,
      is_unsigned_v]

/-- Counterexample to C15: `approx_to<double>` rejects a `float` source, a
floating-point source strictly smaller than the floating-point destination,
and `approx_to<float>` accepts a `double` source. -/
theorem approx_to_rejects_smaller_source :
    ¬ ∀ Dest Src : CType,
        (approx_to_enabled Dest none Src = true ↔
          is_floating_point_v Dest = true
            ∧ ((is_floating_point_v Src = true ∧ Src.sizeof < Dest.sizeof)
              ∨ (is_integral_v Src = true ∧ Src.sizeof ≤ Dest.sizeof))) := by
  intro h
  have := (h (.floating_point double) (.floating_point float)).2 (by decide)
  exact absurd this (by decide)

/-- C15, amended. The condition of `approx_to` holds exactly when the
destination is floating point and either the source is floating point and
strictly larger than the destination, or the source is integral and at least
as large as the destination. -/
theorem approx_to_accepts_iff (Dest Src : CType) (FixSrc : Option CType) :
    approx_to_enabled Dest FixSrc Src = true ↔
      FixSrc_matches FixSrc Src = true ∧ is_floating_point_v Dest = true
        ∧ ((is_floating_point_v Src = true ∧ Dest.sizeof < Src.sizeof)
          ∨ (is_integral_v Src = true ∧ Dest.sizeof ≤ Src.sizeof)) := by
  simp [approx_to_enabled, and_assoc]

/-- C16. With no fixed source type, the constructor of `promote_here<Dest>`
accepts a source type exactly when that type is `Dest` itself or
`promote_to<Dest>` accepts it. -/
theorem promote_here_accepts_iff (Dest Src : CType) :
    promote_here_enabled Dest none Src = true ↔
      (Src = Dest ∨ promote_to_enabled Dest none Src = true) := by
  by_cases h : Dest = Src
  · subst h
    simp [promote_here_enabled, FixSrc_matches]
  · have hne : (Dest == Src) = false := by simpa using h
    have hne2 : ¬ Src = Dest := fun e => h e.symm
    simp [promote_here_enabled, promote_to_enabled, hne, hne2]

/-- Counterexample to C17: `to_unsigned<int>` is accepted for an `int` source,
although `int` is not an unsigned type, and `to_signed<double>` is accepted for
an `unsigned int` source, although `double` is not an integer type. -/
theorem sign_conversions_accept_more :
    ¬ ∀ D S : CType,
        (to_signed_FixDest_enabled D none S = true →
          (is_integral_v D = true ∧ is_signed_v D = true)
            ∧ (is_integral_v S = true ∧ is_unsigned_v S = true))
        ∧ (to_unsigned_FixDest_enabled D none S = true →
          (is_integral_v D = true ∧ is_unsigned_v D = true)
            ∧ (is_integral_v S = true ∧ is_signed_v S = true)) := by
  intro h
  have := (h (.integral int) (.integral int)).2 (by decide)
  exact absurd this (by decide)

/-- C17, amended. Between integer types, the condition of `to_signed<D>` and
`to_signed_cast<D>` holds exactly when `D` is signed and the source unsigned;
the condition of `to_unsigned<D>` and `to_unsigned_cast<D>` holds exactly when
the source is signed, and places no condition on `D`. -/
theorem sign_conversions_accept_iff (D S : IntType) (FixSrc : Option CType) :
    (to_signed_FixDest_enabled (.integral D) FixSrc (.integral S) = true ↔
      FixSrc_matches FixSrc (.integral S) = true ∧ D.is_signed = true ∧ S.is_signed = false)
    ∧ (to_unsigned_FixDest_enabled (.integral D) FixSrc (.integral S) = true ↔
      FixSrc_matches FixSrc (.integral S) = true ∧ S.is_signed = true) := by
  simp [to_signed_FixDest_enabled, to_unsigned_FixDest_enabled, is_signed_v, is_unsigned_v,
    and_assoc]

/-! ### `smart_numerical_casts.h` and the defined conversion of `round_to` -/

/-- C18. In debug builds, `trunc_to_int` and `round_to_int` throw at
`v = -2147483648`, which is `INT_MIN` and so within `[INT_MIN, INT_MAX]`: the
lower test is `v < -INT_MAX`, with `-INT_MAX = -2147483647`.  The conversion
to `int` itself is defined at that value. -/
theorem trunc_to_int_round_to_int_reject_int_min :
    int.min = -2147483648
    ∧ static_cast int (-smart_numerical_casts.INT_MAX) = -2147483647
    ∧ smart_numerical_casts.trunc_to_int true (-2147483648)
        = .overflow_error "double too large to convert to int"
    ∧ smart_numerical_casts.round_to_int true (-2147483648)
        = .overflow_error "double too large to convert to int"
    ∧ floating_to_integral int (-2147483648) = .returns (-2147483648)
    ∧ truncate_to 1 int double (-2147483648) = .returns (-2147483648) := by
  have h1 : int_to_floating double smart_numerical_casts.INT_MAX = 2147483647 := by decide
  have h2 : int_to_floating double (static_cast int (-smart_numerical_casts.INT_MAX))
      = -2147483647 := by decide
  have h3 : int_to_floating double int.max = 2147483647 := by decide
  have h4 : int_to_floating double int.min = -2147483648 := by decide
  have h5 : ⌈(-2147483648 : ℚ)⌉ = -2147483648 := by
    rw [Int.ceil_eq_iff]; norm_num
  refine ⟨by decide, by decide, ?_, ?_, ?_, ?_⟩
  · simp only [smart_numerical_casts.trunc_to_int, h1, h2]
    norm_num
  · simp only [smart_numerical_casts.round_to_int, h1, h2]
    norm_num
  · norm_num [floating_to_integral, trunc, IntType.min, IntType.max, int, IntType.bits, h5]
  · simp only [truncate_to, h3, h4]
    norm_num [floating_to_integral, trunc, IntType.min, IntType.max, int, IntType.bits, h5]

/-- With a `size_t` of four bytes, the debug test of the wrapper `to_signed`
catches every value above `INT_MAX`. -/
theorem smart_to_signed_four_byte_size_t (v : Int)
    (hgt : smart_numerical_casts.INT_MAX < v) (hle : v ≤ unsigned_int.max) :
    smart_numerical_casts.to_signed true v
      = .overflow_error "unsigned int too large to convert to signed" := by
  have hmax : unsigned_int.max = 4294967295 := by decide
  have hI : smart_numerical_casts.INT_MAX = 2147483647 := rfl
  rw [hmax] at hle
  rw [hI] at hgt
  have hcast : static_cast int v = v - 4294967296 := by
    have hd : static_cast int v = (v + 2 ^ 31) % 2 ^ 32 - 2 ^ 31 := rfl
    rw [hd]
    omega
  unfold smart_numerical_casts.to_signed
  rw [cmp_lt_zero int _ rfl (by decide) (static_cast_range int (by decide) v), hcast]
  have : v - 4294967296 < 0 := by omega
  simp [this]

/-- C19. With a `size_t` of eight bytes, the wrapper `to_signed` in a debug
build converts `v = 4294967296`, which is above `INT_MAX`, to the `int` value
`0` without throwing, and `v = 4294967301` to `5`: the test looks at the
converted value only. -/
theorem smart_to_signed_misses_eight_byte_size_t :
    smart_numerical_casts.INT_MAX < 4294967296
    ∧ 4294967296 ≤ unsigned_long_long.max
    ∧ smart_numerical_casts.to_signed true 4294967296 = .returns 0
    ∧ smart_numerical_casts.to_signed true 4294967301 = .returns 5 := by
  decide

